import Mathlib

/-!
Verification of the YT-VideoDownloader-Flask repository (src/app.py and
src/production.py) against its natural-language specification.

The Python source is shallowly embedded: strings are `List Char`, Python's
`str.split` / `in` / `strip` and the `urllib.parse` helpers are modelled as
executable Lean functions, the two URL-validation regexes are transcribed into
a small Brzozowski-derivative regex engine with Python `re.match` semantics,
request handlers become pure functions from a request/environment description
to an outcome record, and the on-disk JSON cache becomes an explicit
key-to-file-content state.
-/

namespace YT

/-! ## Python string primitives over `List Char` -/

/-- Characters stripped by Python's `str.strip()` (ASCII whitespace; the
source never feeds non-ASCII whitespace to `strip`). -/
def isPySpace (c : Char) : Bool :=
  c = ' ' || c = '\t' || c = '\n' || c = '\x0d' || c = '\x0b' || c = '\x0c'

/-- Python `str.strip()`: remove leading and trailing whitespace. -/
def pyStrip (l : List Char) : List Char :=
  ((l.dropWhile isPySpace).reverse.dropWhile isPySpace).reverse

/-- Python `str.split(sep)` for a one-character separator: always returns a
non-empty list, with empty pieces kept (`"a//b".split("/") = ["a","","b"]`). -/
def splitChar (s : Char) : List Char → List (List Char)
  | [] => [[]]
  | c :: cs =>
    let r := splitChar s cs
    if c = s then [] :: r
    else
      match r with
      | [] => [[c]]
      | y :: ys => (c :: y) :: ys

theorem splitChar_ne_nil (s : Char) (l : List Char) : splitChar s l ≠ [] := by
  cases l with
  | nil => simp [splitChar]
  | cons c cs =>
    simp only [splitChar]
    split
    · simp
    · match splitChar s cs with
      | [] => simp
      | y :: ys => simp

@[simp] theorem splitChar_nil (s : Char) : splitChar s [] = [[]] := rfl

theorem splitChar_cons_eq (s : Char) (cs : List Char) :
    splitChar s (s :: cs) = [] :: splitChar s cs := by
  simp [splitChar]

theorem splitChar_cons_ne (s c : Char) (cs : List Char) (h : c ≠ s) :
    splitChar s (c :: cs) =
      (c :: (splitChar s cs).headD []) :: (splitChar s cs).tail := by
  simp only [splitChar, if_neg h]
  rcases hr : splitChar s cs with _ | ⟨y, ys⟩
  · exact absurd hr (splitChar_ne_nil s cs)
  · simp

/-- A separator-free string splits into a single piece. -/
theorem splitChar_of_not_mem {s : Char} {l : List Char}
    (h : ∀ c ∈ l, c ≠ s) : splitChar s l = [l] := by
  induction l with
  | nil => rfl
  | cons c cs ih =>
    rw [splitChar_cons_ne s c cs (h c (by simp))]
    rw [ih (fun x hx => h x (by simp [hx]))]
    simp

/-- Glue the last piece of a left split onto the first piece of a right
split; `splitChar` distributes over `++` through this operation. -/
def glueSplit : List (List Char) → List (List Char) → List (List Char)
  | [], ys => ys
  | [x], ys =>
    match ys with
    | [] => [x]
    | y :: ys' => (x ++ y) :: ys'
  | x :: xs, ys => x :: glueSplit xs ys

theorem splitChar_append (s : Char) (a b : List Char) :
    splitChar s (a ++ b) = glueSplit (splitChar s a) (splitChar s b) := by
  induction a with
  | nil =>
    rcases hb : splitChar s b with _ | ⟨y, ys⟩
    · exact absurd hb (splitChar_ne_nil s b)
    · simp [glueSplit, hb]
  | cons c cs ih =>
    by_cases hc : c = s
    · rw [List.cons_append, hc, splitChar_cons_eq, splitChar_cons_eq, ih]
      rcases hcs : splitChar s cs with _ | ⟨y, ys⟩
      · exact absurd hcs (splitChar_ne_nil s cs)
      · rfl
    · rw [List.cons_append, splitChar_cons_ne s c _ hc, splitChar_cons_ne s c _ hc, ih]
      rcases hcs : splitChar s cs with _ | ⟨y, ys⟩
      · exact absurd hcs (splitChar_ne_nil s cs)
      · rcases ys with _ | ⟨z, zs⟩
        · rcases hb : splitChar s b with _ | ⟨w, ws⟩
          · exact absurd hb (splitChar_ne_nil s b)
          · simp [glueSplit, hb]
        · simp [glueSplit]

/-- Python `lst[-1]` on the (always non-empty) result of `split`. -/
def pyLast (l : List (List Char)) : List Char := l.getLastD []

/-- Python `lst[0]` on the (always non-empty) result of `split`. -/
def pyHead (l : List (List Char)) : List Char := l.headD []

/-- Python `sub in s` substring containment test. -/
def hasSub (pat : List Char) : List Char → Bool
  | [] => pat.isEmpty
  | c :: cs => pat.isPrefixOf (c :: cs) || hasSub pat cs

/-- The scan `hasSub` agrees with list-infix. -/
theorem hasSub_iff_occurs (pat l : List Char) : hasSub pat l = true ↔ pat <:+: l := by
  induction l with
  | nil =>
    simp only [hasSub, List.isEmpty_iff]
    constructor
    · rintro rfl; exact List.infix_rfl
    · intro h; exact List.eq_nil_of_infix_nil h
  | cons c cs ih =>
    simp only [hasSub, Bool.or_eq_true, List.isPrefixOf_iff_prefix, ih]
    constructor
    · rintro (h | h)
      · exact h.isInfix
      · exact h.trans (List.infix_cons List.infix_rfl)
    · intro h
      rcases h with ⟨s1, t, hst⟩
      rcases s1 with _ | ⟨x, xs⟩
      · left; exact ⟨t, by simpa using hst⟩
      · right
        simp only [List.cons_append] at hst
        injection hst with h1 h2
        exact ⟨xs, t, h2⟩

/-! ## Regex engine (Brzozowski derivatives) for the two validation patterns

Models the semantics of Python `re.match` with `re.IGNORECASE` for the exact
pattern texts appearing in `is_valid_youtube_url`.  Case-insensitivity is
modelled by ASCII lowercasing (the patterns contain only ASCII letters);
`\w` / `\s` are modelled by their ASCII meaning. -/

inductive RE where
  | emp : RE
  | eps : RE
  | cls : (Char → Bool) → RE
  | alt : RE → RE → RE
  | cat : RE → RE → RE
  | star : RE → RE

def RE.nullable : RE → Bool
  | .emp => false
  | .eps => true
  | .cls _ => false
  | .alt a b => a.nullable || b.nullable
  | .cat a b => a.nullable && b.nullable
  | .star _ => true

/-- Smart alternation (language-preserving simplification). -/
def RE.mkAlt : RE → RE → RE
  | .emp, b => b
  | a, .emp => a
  | a, b => .alt a b

/-- Smart concatenation (language-preserving simplification). -/
def RE.mkCat : RE → RE → RE
  | .emp, _ => .emp
  | .eps, b => b
  | _, .emp => .emp
  | a, .eps => a
  | a, b => .cat a b

def RE.deriv : RE → Char → RE
  | .emp, _ => .emp
  | .eps, _ => .emp
  | .cls p, c => if p c then .eps else .emp
  | .alt a b, c => .mkAlt (a.deriv c) (b.deriv c)
  | .cat a b, c =>
    if a.nullable then .mkAlt (.mkCat (a.deriv c) b) (b.deriv c)
    else .mkCat (a.deriv c) b
  | .star a, c => .mkCat (a.deriv c) (.star a)

/-- Whether `r` matches the whole of `l`. -/
def reFull (r : RE) (l : List Char) : Bool :=
  (l.foldl RE.deriv r).nullable

/-- Python `re.match(r, s)` for a pattern without a `$` anchor: `r` matches
some prefix of `s` starting at position 0. -/
def reStart (r : RE) : List Char → Bool
  | [] => r.nullable
  | c :: cs => r.nullable || reStart (r.deriv c) cs

/-- Python `re.match(r'...$', s)`: `$` matches at end of string or just
before a newline at the end of the string. -/
def reDollar (r : RE) (l : List Char) : Bool :=
  reFull r l || (decide (l.getLast? = some '\n') && reFull r l.dropLast)

/-- A literal character, case-insensitively (`re.IGNORECASE`). -/
def ichr (c : Char) : RE := .cls (fun x => x.toLower = c.toLower)

/-- A literal string, case-insensitively. -/
def istr (s : String) : RE := s.data.foldr (fun c r => .mkCat (ichr c) r) .eps

/-- Regex `.` (any character except newline). -/
def anyCh : RE := .cls (fun c => c ≠ '\n')

/-- Regex `r{n}`. -/
def reRep : Nat → RE → RE
  | 0, _ => .eps
  | n + 1, r => .mkCat r (reRep n r)

/-- Regex `r?`. -/
def reOpt (r : RE) : RE := .alt r .eps

/-- Regex `r+`. -/
def rePlus (r : RE) : RE := .mkCat r (.star r)

/-- ASCII model of regex `\w` (Python word character). -/
def isWordChar (c : Char) : Bool := c.isAlphanum || c = '_'

/-! ### Transcription of the primary pattern from `is_valid_youtube_url`:
`^((?:https?:)?\/\/)?((?:www|m)\.)?(youtube\.com|youtu\.be|youtube-nocookie\.com)(\/.*[\?&]v=|\/v\/|\/embed\/|\/shorts\/|\/watch\?v=|\/watch\?.+&v=)([^#\&\?\n\s]{11})`
compiled with `re.IGNORECASE` and used via `re.match` (prefix semantics). -/

def pat1Scheme : RE :=
  reOpt (.cat (reOpt (.cat (istr "http") (.cat (reOpt (ichr 's')) (ichr ':')))) (istr "//"))

def pat1Www : RE := reOpt (.cat (.alt (istr "www") (istr "m")) (ichr '.'))

def pat1Domain : RE :=
  .alt (istr "youtube.com") (.alt (istr "youtu.be") (istr "youtube-nocookie.com"))

def pat1Sep : RE :=
  .alt (.cat (ichr '/') (.cat (.star anyCh) (.cat (.cls (fun c => c = '?' || c = '&')) (istr "v="))))
    (.alt (istr "/v/")
      (.alt (istr "/embed/")
        (.alt (istr "/shorts/")
          (.alt (istr "/watch?v=")
            (.cat (istr "/watch?") (.cat (rePlus anyCh) (istr "&v=")))))))

/-- Regex class `[^#\&\?\n\s]`. -/
def pat1IdChar : RE :=
  .cls (fun c => !(c = '#' || c = '&' || c = '?' || isPySpace c))

def pat1 : RE :=
  .cat pat1Scheme (.cat pat1Www (.cat pat1Domain (.cat pat1Sep (reRep 11 pat1IdChar))))

/-! ### Transcription of the fallback pattern:
`^(https?:\/\/)?(www\.)?(youtu\.be\/|youtube\.com\/(embed\/|v\/|watch\?v=|watch\?.+&v=))([\w-]{11})(\S*)$`
compiled with `re.IGNORECASE`; the trailing `$` makes `re.match` behave as a
full match (up to a trailing newline). -/

def pat2Scheme : RE := reOpt (.cat (istr "http") (.cat (reOpt (ichr 's')) (istr "://")))

def pat2Www : RE := reOpt (istr "www.")

def pat2Core : RE :=
  .alt (istr "youtu.be/")
    (.cat (istr "youtube.com/")
      (.alt (istr "embed/")
        (.alt (istr "v/")
          (.alt (istr "watch?v=")
            (.cat (istr "watch?") (.cat (rePlus anyCh) (istr "&v=")))))))

/-- Regex class `[\w-]`. -/
def pat2IdChar : RE := .cls (fun c => isWordChar c || c = '-')

def pat2 : RE :=
  .cat pat2Scheme
    (.cat pat2Www (.cat pat2Core (.cat (reRep 11 pat2IdChar) (.star (.cls (fun c => !isPySpace c))))))

/-- Validator `is_valid_youtube_url` from `src/app.py` / `src/production.py`: try the
primary pattern with `re.match`; if it fails, the result is the fallback
pattern's `re.match` outcome. -/
def is_valid_youtube_url (url : List Char) : Bool :=
  reStart pat1 url || reDollar pat2 url

example : is_valid_youtube_url "https://www.youtube.com/watch?v=dQw4w9WgXcQ".data = true := by decide
example : is_valid_youtube_url "https://youtu.be/dQw4w9WgXcQ".data = true := by decide
example : is_valid_youtube_url "notaurl".data = false := by decide
example : is_valid_youtube_url "https://example.com/watch?v=dQw4w9WgXcQ".data = false := by decide
example : is_valid_youtube_url "".data = false := by decide

/-! ## `extract_video_id` and its `urllib.parse` collaborators -/

/-- The video-identifier character class `[0-9A-Za-z_-]`. -/
def isIdChar (c : Char) : Bool := c.isAlphanum || c = '_' || c = '-'

/-- Model of `re.search(r'[0-9A-Za-z_-]{11}', url)`: the first (leftmost) run of 11
consecutive identifier characters, if any. -/
def search11 : List Char → Option (List Char)
  | [] => none
  | c :: rest =>
    if ((c :: rest).take 11).length = 11 && ((c :: rest).take 11).all isIdChar
    then some ((c :: rest).take 11)
    else search11 rest

/-- The components of `urllib.parse.urlparse` that the source reads. -/
structure UrlParts where
  netloc : List Char
  path : List Char
  query : List Char
deriving DecidableEq

/-- Characters allowed in a URL scheme after the initial letter. -/
def schemeChar (c : Char) : Bool := c.isAlphanum || c = '+' || c = '-' || c = '.'

/-- Model of `urllib.parse.urlparse` restricted to the fields the source
uses (netloc, path, query): strip the unsafe bytes `\t\r\n`, split off a
valid `scheme:`, take `//netloc` up to the first `/?#`, drop a `#fragment`,
and split `path?query` at the first `?`. -/
def urlparse (url0 : List Char) : UrlParts :=
  let url1 := url0.filter (fun c => !(c = '\t' || c = '\x0d' || c = '\n'))
  let pre := url1.takeWhile (fun c => c ≠ ':')
  let url2 :=
    if pre.length < url1.length && !pre.isEmpty &&
        (pre.headD ' ').isAlpha && pre.all schemeChar
    then url1.drop (pre.length + 1) else url1
  let netloc :=
    if url2.take 2 = ['/', '/']
    then (url2.drop 2).takeWhile (fun c => !(c = '/' || c = '?' || c = '#'))
    else []
  let url3 :=
    if url2.take 2 = ['/', '/'] then (url2.drop 2).drop netloc.length else url2
  let url4 := url3.takeWhile (fun c => c ≠ '#')
  let path := url4.takeWhile (fun c => c ≠ '?')
  { netloc := netloc, path := path, query := url4.drop (path.length + 1) }

/-- One `name=value` piece of `urllib.parse.parse_qsl` with default options:
split at the first `=`; pieces without an `=` or with an empty value are
dropped (`keep_blank_values=False`).  Percent-decoding and `+` replacement
are not modelled; no input in this development contains `%` or `+`. -/
def qsPiece (nv : List Char) : Option (List Char × List Char) :=
  if '=' ∈ nv then
    if nv.drop ((nv.takeWhile (fun c => c ≠ '=')).length + 1) = [] then none
    else some (nv.takeWhile (fun c => c ≠ '='),
               nv.drop ((nv.takeWhile (fun c => c ≠ '=')).length + 1))
  else none

def parse_qsl (q : List Char) : List (List Char × List Char) :=
  (splitChar '&' q).filterMap qsPiece

/-- Combined `'v' in parse_qs(q)` / `parse_qs(q)['v'][0]`: the first value
bound to key `v`, if any. -/
def qsFirstV (q : List Char) : Option (List Char) :=
  ((parse_qsl q).find? (fun p => p.1 = ['v'])).map (fun p => p.2)

/-- Extractor `extract_video_id` from `src/app.py` / `src/production.py` (identical in
both): youtu.be fast path, then the `youtube.com` netloc branches (`v` query
parameter, then `/embed/` path), then the 11-character last path segment,
then a last-resort scan for any 11-character identifier token. -/
def extract_video_id (url : List Char) : Option (List Char) :=
  if hasSub "youtu.be".data url then
    some (pyHead (splitChar '?' (pyLast (splitChar '/' url))))
  else
    let parsed := urlparse url
    let branch : Option (List Char) :=
      if hasSub "youtube.com".data parsed.netloc then
        match qsFirstV parsed.query with
        | some v => some v
        | none =>
          if hasSub "embed".data parsed.path then
            some (pyLast (splitChar '/' parsed.path))
          else none
      else none
    match branch with
    | some r => some r
    | none =>
      let segs := (splitChar '/' parsed.path).filter (fun s => !s.isEmpty)
      if !segs.isEmpty && (segs.getLastD []).length = 11 then some (segs.getLastD [])
      else search11 url

/-! ## Helper lemmas for reasoning about URLs with a symbolic identifier -/

theorem hasSub_eq_false_iff (pat l : List Char) :
    hasSub pat l = false ↔ ¬ pat <:+: l := by
  rw [← hasSub_iff_occurs]
  cases hasSub pat l <;> simp

/-- An infix occurrence pins down every pattern character at an offset. -/
theorem occurrence_getD {pat l : List Char} (h : pat <:+: l) :
    ∃ i, i + pat.length ≤ l.length ∧
      ∀ j, j < pat.length → l.getD (i + j) ' ' = pat.getD j ' ' := by
  rcases h with ⟨s, t, hst⟩
  refine ⟨s.length, ?_, ?_⟩
  · subst hst; simp [List.length_append]
  · intro j hj
    subst hst
    rw [List.append_assoc]
    rw [List.getD_append_right _ _ _ _ (by omega)]
    rw [Nat.add_sub_cancel_left]
    rw [List.getD_append _ _ _ _ hj]

/-- Identifier characters are none of the URL delimiter characters. -/
theorem isIdChar_ne {c : Char} (h : isIdChar c = true) :
    c ≠ '#' ∧ c ≠ '&' ∧ c ≠ '?' ∧ c ≠ '/' ∧ c ≠ '=' ∧ c ≠ ':' ∧ c ≠ '.' ∧
      c ≠ '\t' ∧ c ≠ '\x0d' ∧ c ≠ '\n' := by
  refine ⟨?_, ?_, ?_, ?_, ?_, ?_, ?_, ?_, ?_, ?_⟩ <;>
    (rintro rfl; revert h; decide)

/-- The pattern `"youtu.be"` does not occur in `P ++ (id ++ E)` when the dots of `P` are
never five places after a `y`, `id` is an 11-character identifier, and `E`
is dot-free.  (The `.` of any occurrence would have to sit in `P`, at
position five past the occurrence's `y`.) -/
theorem youtuBe_not_occurring {id : List Char} (P E : List Char)
    (hlen : id.length = 11) (hid : ∀ c ∈ id, isIdChar c = true)
    (hP : ∀ m, m < P.length → P.getD m ' ' = '.' → 5 ≤ m ∧ P.getD (m - 5) ' ' ≠ 'y')
    (hE : '.' ∉ E) :
    ¬ ("youtu.be".data <:+: P ++ (id ++ E)) := by
  intro h
  obtain ⟨i, hile, hch⟩ := occurrence_getD h
  have hplen : ("youtu.be".data).length = 8 := by decide
  have hllen : (P ++ (id ++ E)).length = P.length + (11 + E.length) := by
    simp [List.length_append, hlen]
  have h5 : (P ++ (id ++ E)).getD (i + 5) ' ' = '.' := by
    rw [hch 5 (by decide)]; decide
  have h0 : (P ++ (id ++ E)).getD i ' ' = 'y' := by
    have := hch 0 (by decide)
    simpa using this
  rw [hplen] at hile
  rcases Nat.lt_or_ge (i + 5) P.length with hm | hm
  · rw [List.getD_append _ _ _ _ hm] at h5
    obtain ⟨h5le, hy⟩ := hP (i + 5) hm h5
    have hi : i < P.length := by omega
    rw [List.getD_append _ _ _ _ hi] at h0
    have : i + 5 - 5 = i := by omega
    rw [this] at hy
    exact hy (by simpa using h0)
  · rcases Nat.lt_or_ge (i + 5) (P.length + 11) with hm2 | hm2
    · rw [List.getD_append_right _ _ _ _ hm] at h5
      have hidx : i + 5 - P.length < id.length := by omega
      rw [List.getD_append _ _ _ _ hidx] at h5
      rw [List.getD_eq_getElem _ _ hidx] at h5
      have := hid _ (List.getElem_mem hidx)
      rw [h5] at this
      exact absurd this (by decide)
    · have hm3 : i + 5 < (P ++ (id ++ E)).length := by omega
      rw [hllen] at hm3
      rw [List.getD_append_right _ _ _ _ hm] at h5
      rw [List.getD_append_right _ _ _ _ (by omega : id.length ≤ i + 5 - P.length)] at h5
      have hidx : i + 5 - P.length - id.length < E.length := by omega
      rw [List.getD_eq_getElem _ _ hidx] at h5
      exact hE (h5 ▸ List.getElem_mem hidx)

/-- A valid 11-character video identifier. -/
@[reducible] def validId (id : List Char) : Prop :=
  id.length = 11 ∧ ∀ c ∈ id, isIdChar c = true

theorem id_ne_char {id : List Char} (hid : ∀ c ∈ id, isIdChar c = true)
    {c0 : Char} (h0 : isIdChar c0 = false) : ∀ c ∈ id, c ≠ c0 := by
  intro c hc heq
  rw [heq] at hc
  rw [hid c0 hc] at h0
  exact Bool.true_eq_false.mp h0

theorem keep_of_id {id : List Char} (hid : ∀ c ∈ id, isIdChar c = true) :
    id.filter (fun c => !(c = '\t' || c = '\x0d' || c = '\n')) = id := by
  rw [List.filter_eq_self]
  intro c hc
  obtain ⟨-, -, -, -, -, -, -, h1, h2, h3⟩ := isIdChar_ne (hid c hc)
  simp [h1, h2, h3]

/-- Computation `takeWhile (· ≠ c0)` keeps a whole identifier when `c0` is not an
identifier character. -/
theorem takeWhile_ne_id {id : List Char} (hid : ∀ c ∈ id, isIdChar c = true)
    {c0 : Char} (h0 : isIdChar c0 = false) :
    id.takeWhile (fun c => c ≠ c0) = id := by
  rw [List.takeWhile_eq_self_iff]
  intro c hc
  simpa using id_ne_char hid h0 c hc

/-- Splitting `splitChar c0` does not split an identifier. -/
theorem splitChar_id {id : List Char} (hid : ∀ c ∈ id, isIdChar c = true)
    {c0 : Char} (h0 : isIdChar c0 = false) : splitChar c0 id = [id] :=
  splitChar_of_not_mem (id_ne_char hid h0)

theorem takeWhile_append_of_left_all {p : Char → Bool} {a : List Char} (b : List Char)
    (ha : a.takeWhile p = a) : (a ++ b).takeWhile p = a ++ b.takeWhile p := by
  rw [List.takeWhile_append, ha, if_pos rfl]

theorem takeWhile_append_stop {p : Char → Bool} {a : List Char} (b : List Char)
    (ha : (a.takeWhile p).length ≠ a.length) : (a ++ b).takeWhile p = a.takeWhile p := by
  rw [List.takeWhile_append, if_neg ha]

/-- A query piece of the form `v=<value>` with a `=`-free non-empty value
parses to the pair `("v", value)`. -/
theorem qsPiece_v {X : List Char} (hX : X ≠ []) :
    qsPiece ("v=".data ++ X) = some (['v'], X) := by
  have htw : ("v=".data ++ X).takeWhile (fun c => c ≠ '=') = ['v'] := by
    rw [takeWhile_append_stop X (by decide)]; decide
  have hdrop : ("v=".data ++ X).drop (2 : Nat) = X := by
    rw [List.drop_append_eq_append_drop]
    simp [String.data]
  rw [qsPiece, if_pos (by simp : '=' ∈ ("v=".data ++ X)), htw]
  simp only [List.length_cons, List.length_nil, Nat.zero_add, Nat.reduceAdd, hdrop]
  rw [if_neg hX]

/-- When the first piece of the split query is `v=X`, the `v` lookup returns
`X` no matter what follows. -/
theorem qsFirstV_head_v {q X : List Char} {rest : List (List Char)}
    (hs : splitChar '&' q = ("v=".data ++ X) :: rest) (hX : X ≠ []) :
    qsFirstV q = some X := by
  rw [qsFirstV, parse_qsl, hs, List.filterMap_cons, qsPiece_v hX]
  simp [List.find?]

/-- When the first piece parses to a non-`v` pair, the lookup skips it. -/
theorem qsFirstV_cons_skip {q p1 : List Char} {rest : List (List Char)}
    {k v : List Char}
    (hs : splitChar '&' q = p1 :: rest)
    (hp : qsPiece p1 = some (k, v)) (hk : k ≠ ['v']) :
    qsFirstV q = ((rest.filterMap qsPiece).find? (fun p => p.1 = ['v'])).map
      (fun p => p.2) := by
  rw [qsFirstV, parse_qsl, hs, List.filterMap_cons, hp]
  rw [List.find?_cons]
  simp [hk]

/-- Evaluating `urlparse` on `https://www.youtube.com/<rest>` URLs: the netloc is
`www.youtube.com`, the path is `/` plus `rest` up to the first `#`/`?`, and
the query is what follows the first `?`. -/
theorem urlparse_yt (rest : List Char)
    (hkeep : rest.filter (fun c => !(c = '\t' || c = '\x0d' || c = '\n')) = rest) :
    urlparse ("https://www.youtube.com/".data ++ rest) =
      { netloc := "www.youtube.com".data,
        path := '/' :: (rest.takeWhile (fun c => c ≠ '#')).takeWhile (fun c => c ≠ '?'),
        query := (rest.takeWhile (fun c => c ≠ '#')).drop
          (((rest.takeWhile (fun c => c ≠ '#')).takeWhile (fun c => c ≠ '?')).length + 1) } := by
  simp only [urlparse, List.filter_append, hkeep]
  simp [List.takeWhile_cons, List.takeWhile_append, List.drop_append_eq_append_drop,
        List.take_append_of_le_length, List.length_append, String.data, schemeChar]

/-! ## The recognized URL shapes for a given video identifier -/

def watchUrl (id : List Char) : List Char :=
  "https://www.youtube.com/watch?v=".data ++ id

def watchUrlParams (id : List Char) : List Char :=
  "https://www.youtube.com/watch?v=".data ++ id ++ "&t=30s".data

def watchUrlPre (id : List Char) : List Char :=
  "https://www.youtube.com/watch?feature=share&v=".data ++ id

def shortUrl (id : List Char) : List Char := "https://youtu.be/".data ++ id

def shortUrlParams (id : List Char) : List Char :=
  "https://youtu.be/".data ++ id ++ "?t=30s".data

def embedUrl (id : List Char) : List Char :=
  "https://www.youtube.com/embed/".data ++ id

def embedUrlParams (id : List Char) : List Char :=
  "https://www.youtube.com/embed/".data ++ id ++ "?autoplay=1".data

def shortsUrl (id : List Char) : List Char :=
  "https://www.youtube.com/shorts/".data ++ id

def shortsUrlParams (id : List Char) : List Char :=
  "https://www.youtube.com/shorts/".data ++ id ++ "?feature=share".data

/-! ## Extraction on each shape -/

theorem extract_watchUrl {id : List Char} (h : validId id) :
    extract_video_id (watchUrl id) = some id := by
  obtain ⟨hlen, hid⟩ := h
  have hne : id ≠ [] := by intro h0; rw [h0] at hlen; simp at hlen
  have hcat : "https://www.youtube.com/".data ++ "watch?v=".data
      = "https://www.youtube.com/watch?v=".data := by decide
  have hassoc : watchUrl id = "https://www.youtube.com/".data ++ ("watch?v=".data ++ id) := by
    rw [watchUrl, ← hcat, List.append_assoc]
  have hns : hasSub "youtu.be".data (watchUrl id) = false := by
    rw [hasSub_eq_false_iff]
    have h2 : watchUrl id = "https://www.youtube.com/watch?v=".data ++ (id ++ []) := by
      rw [watchUrl, List.append_nil]
    rw [h2]
    exact youtuBe_not_occurring _ _ hlen hid (by decide) (by decide)
  have hkeepc : ("watch?v=".data).filter
      (fun c => !(c = '\t' || c = '\x0d' || c = '\n')) = "watch?v=".data := by decide
  have hkeep : ("watch?v=".data ++ id).filter
      (fun c => !(c = '\t' || c = '\x0d' || c = '\n')) = "watch?v=".data ++ id := by
    rw [List.filter_append, keep_of_id hid, hkeepc]
  have hup := urlparse_yt _ hkeep
  rw [← hassoc] at hup
  have htw1 : ("watch?v=".data ++ id).takeWhile (fun c => c ≠ '#')
      = "watch?v=".data ++ id := by
    rw [takeWhile_append_of_left_all id (by decide), takeWhile_ne_id hid (by decide)]
  have htw2 : ("watch?v=".data ++ id).takeWhile (fun c => c ≠ '?') = "watch".data := by
    rw [takeWhile_append_stop id (by decide)]; decide
  rw [htw1, htw2] at hup
  have hq : ("watch?v=".data ++ id).drop ("watch".data.length + 1) = "v=".data ++ id := by
    rw [List.drop_append_eq_append_drop]
    simp [String.data]
  rw [hq] at hup
  have hsplit : splitChar '&' ("v=".data ++ id) = [("v=".data ++ id)] := by
    apply splitChar_of_not_mem
    intro c hc
    rcases List.mem_append.mp hc with hcm | hcm
    · have h2 : c = 'v' ∨ c = '=' := by simpa using hcm
      rcases h2 with rfl | rfl <;> decide
    · exact id_ne_char hid (by decide) c hcm
  have hqs : qsFirstV ("v=".data ++ id) = some id := qsFirstV_head_v hsplit hne
  rw [extract_video_id]
  rw [if_neg (show ¬ hasSub "youtu.be".data (watchUrl id) = true from
    fun ht => Bool.false_ne_true (hns ▸ ht))]
  rw [hup]
  have hnet : hasSub "youtube.com".data "www.youtube.com".data = true := by decide
  simp only [hnet, hqs, if_true]

theorem extract_watchUrlParams {id : List Char} (h : validId id) :
    extract_video_id (watchUrlParams id) = some id := by
  obtain ⟨hlen, hid⟩ := h
  have hne : id ≠ [] := by intro h0; rw [h0] at hlen; simp at hlen
  have hcat : "https://www.youtube.com/".data ++ "watch?v=".data
      = "https://www.youtube.com/watch?v=".data := by decide
  have hassoc : watchUrlParams id
      = "https://www.youtube.com/".data ++ ("watch?v=".data ++ (id ++ "&t=30s".data)) := by
    rw [watchUrlParams, List.append_assoc, ← hcat, List.append_assoc]
  have hns : hasSub "youtu.be".data (watchUrlParams id) = false := by
    rw [hasSub_eq_false_iff]
    have h2 : watchUrlParams id
        = "https://www.youtube.com/watch?v=".data ++ (id ++ "&t=30s".data) := by
      rw [watchUrlParams, List.append_assoc]
    rw [h2]
    exact youtuBe_not_occurring _ _ hlen hid (by decide) (by decide)
  have hkeep : ("watch?v=".data ++ (id ++ "&t=30s".data)).filter
      (fun c => !(c = '\t' || c = '\x0d' || c = '\n'))
      = "watch?v=".data ++ (id ++ "&t=30s".data) := by
    rw [List.filter_append, List.filter_append, keep_of_id hid]
    rw [show ("watch?v=".data).filter
      (fun c => !(c = '\t' || c = '\x0d' || c = '\n')) = "watch?v=".data from by decide]
    rw [show ("&t=30s".data).filter
      (fun c => !(c = '\t' || c = '\x0d' || c = '\n')) = "&t=30s".data from by decide]
  have hup := urlparse_yt _ hkeep
  rw [← hassoc] at hup
  have htw1 : ("watch?v=".data ++ (id ++ "&t=30s".data)).takeWhile (fun c => c ≠ '#')
      = "watch?v=".data ++ (id ++ "&t=30s".data) := by
    rw [takeWhile_append_of_left_all _ (by decide),
        takeWhile_append_of_left_all _ (takeWhile_ne_id hid (by decide))]
    rw [show ("&t=30s".data).takeWhile (fun c => c ≠ '#') = "&t=30s".data from by decide]
  have htw2 : ("watch?v=".data ++ (id ++ "&t=30s".data)).takeWhile (fun c => c ≠ '?')
      = "watch".data := by
    rw [takeWhile_append_stop _ (by decide)]; decide
  rw [htw1, htw2] at hup
  have hq : ("watch?v=".data ++ (id ++ "&t=30s".data)).drop ("watch".data.length + 1)
      = "v=".data ++ (id ++ "&t=30s".data) := by
    rw [List.drop_append_eq_append_drop]
    simp [String.data]
  rw [hq] at hup
  have hs : splitChar '&' ("v=".data ++ (id ++ "&t=30s".data))
      = ("v=".data ++ id) :: ["t=30s".data] := by
    rw [← List.append_assoc, splitChar_append]
    have ha : splitChar '&' ("v=".data ++ id) = [("v=".data ++ id)] := by
      apply splitChar_of_not_mem
      intro c hc
      rcases List.mem_append.mp hc with hcm | hcm
      · have h2 : c = 'v' ∨ c = '=' := by simpa using hcm
        rcases h2 with rfl | rfl <;> decide
      · exact id_ne_char hid (by decide) c hcm
    rw [ha, show splitChar '&' ("&t=30s".data) = [[], "t=30s".data] from by decide]
    simp [glueSplit]
  have hqs : qsFirstV ("v=".data ++ (id ++ "&t=30s".data)) = some id :=
    qsFirstV_head_v hs hne
  rw [extract_video_id]
  rw [if_neg (show ¬ hasSub "youtu.be".data (watchUrlParams id) = true from
    fun ht => Bool.false_ne_true (hns ▸ ht))]
  rw [hup]
  have hnet : hasSub "youtube.com".data "www.youtube.com".data = true := by decide
  simp only [hnet, hqs, if_true]

theorem extract_watchUrlPre {id : List Char} (h : validId id) :
    extract_video_id (watchUrlPre id) = some id := by
  obtain ⟨hlen, hid⟩ := h
  have hne : id ≠ [] := by intro h0; rw [h0] at hlen; simp at hlen
  have hcat : "https://www.youtube.com/".data ++ "watch?feature=share&v=".data
      = "https://www.youtube.com/watch?feature=share&v=".data := by decide
  have hassoc : watchUrlPre id
      = "https://www.youtube.com/".data ++ ("watch?feature=share&v=".data ++ id) := by
    rw [watchUrlPre, ← hcat, List.append_assoc]
  have hns : hasSub "youtu.be".data (watchUrlPre id) = false := by
    rw [hasSub_eq_false_iff]
    have h2 : watchUrlPre id
        = "https://www.youtube.com/watch?feature=share&v=".data ++ (id ++ []) := by
      rw [watchUrlPre, List.append_nil]
    rw [h2]
    exact youtuBe_not_occurring _ _ hlen hid (by decide) (by decide)
  have hkeep : ("watch?feature=share&v=".data ++ id).filter
      (fun c => !(c = '\t' || c = '\x0d' || c = '\n'))
      = "watch?feature=share&v=".data ++ id := by
    rw [List.filter_append, keep_of_id hid]
    rw [show ("watch?feature=share&v=".data).filter
      (fun c => !(c = '\t' || c = '\x0d' || c = '\n'))
      = "watch?feature=share&v=".data from by decide]
  have hup := urlparse_yt _ hkeep
  rw [← hassoc] at hup
  have htw1 : ("watch?feature=share&v=".data ++ id).takeWhile (fun c => c ≠ '#')
      = "watch?feature=share&v=".data ++ id := by
    rw [takeWhile_append_of_left_all _ (by decide), takeWhile_ne_id hid (by decide)]
  have htw2 : ("watch?feature=share&v=".data ++ id).takeWhile (fun c => c ≠ '?')
      = "watch".data := by
    rw [takeWhile_append_stop _ (by decide)]; decide
  rw [htw1, htw2] at hup
  have hq : ("watch?feature=share&v=".data ++ id).drop ("watch".data.length + 1)
      = "feature=share&v=".data ++ id := by
    rw [List.drop_append_eq_append_drop]
    simp [String.data]
  rw [hq] at hup
  have hs : splitChar '&' ("feature=share&v=".data ++ id)
      = ["feature=share".data, "v=".data ++ id] := by
    rw [splitChar_append]
    rw [show splitChar '&' ("feature=share&v=".data)
      = ["feature=share".data, "v=".data] from by decide]
    rw [splitChar_id hid (by decide)]
    simp [glueSplit]
  have hqs : qsFirstV ("feature=share&v=".data ++ id) = some id := by
    rw [qsFirstV_cons_skip hs (show qsPiece ("feature=share".data)
      = some ("feature".data, "share".data) from by decide) (by decide)]
    rw [List.filterMap_cons, List.filterMap_nil, qsPiece_v hne]
    simp [List.find?]
  rw [extract_video_id]
  rw [if_neg (show ¬ hasSub "youtu.be".data (watchUrlPre id) = true from
    fun ht => Bool.false_ne_true (hns ▸ ht))]
  rw [hup]
  have hnet : hasSub "youtube.com".data "www.youtube.com".data = true := by decide
  simp only [hnet, hqs, if_true]

theorem extract_shortUrl {id : List Char} (h : validId id) :
    extract_video_id (shortUrl id) = some id := by
  obtain ⟨hlen, hid⟩ := h
  have hyes : hasSub "youtu.be".data (shortUrl id) = true := by
    rw [hasSub_iff_occurs]
    exact ⟨"https://".data, '/' :: id, rfl⟩
  rw [extract_video_id, if_pos hyes]
  have hs1 : splitChar '/' (shortUrl id) = ["https:".data, [], "youtu.be".data, id] := by
    rw [shortUrl, splitChar_append]
    rw [show splitChar '/' ("https://youtu.be/".data)
      = ["https:".data, [], "youtu.be".data, []] from by decide]
    rw [splitChar_id hid (by decide)]
    simp [glueSplit]
  rw [hs1]
  rw [show pyLast ["https:".data, [], "youtu.be".data, id] = id from by
    simp [pyLast]]
  rw [splitChar_id hid (by decide)]
  rfl

theorem extract_shortUrlParams {id : List Char} (h : validId id) :
    extract_video_id (shortUrlParams id) = some id := by
  obtain ⟨hlen, hid⟩ := h
  have hassoc : shortUrlParams id = "https://youtu.be/".data ++ (id ++ "?t=30s".data) := by
    rw [shortUrlParams, List.append_assoc]
  have hyes : hasSub "youtu.be".data (shortUrlParams id) = true := by
    rw [hasSub_iff_occurs, hassoc]
    exact ⟨"https://".data, '/' :: (id ++ "?t=30s".data), rfl⟩
  rw [extract_video_id, if_pos hyes, hassoc]
  have hnos : ∀ c ∈ id ++ "?t=30s".data, c ≠ '/' := by
    intro c hc
    rcases List.mem_append.mp hc with hcm | hcm
    · exact id_ne_char hid (by decide) c hcm
    · have h2 : c = '?' ∨ c = 't' ∨ c = '=' ∨ c = '3' ∨ c = '0' ∨ c = 's' := by
        simpa using hcm
      rcases h2 with rfl | rfl | rfl | rfl | rfl | rfl <;> decide
  have hs1 : splitChar '/' ("https://youtu.be/".data ++ (id ++ "?t=30s".data))
      = ["https:".data, [], "youtu.be".data, id ++ "?t=30s".data] := by
    rw [splitChar_append]
    rw [show splitChar '/' ("https://youtu.be/".data)
      = ["https:".data, [], "youtu.be".data, []] from by decide]
    rw [splitChar_of_not_mem hnos]
    simp [glueSplit]
  rw [hs1]
  rw [show pyLast ["https:".data, [], "youtu.be".data, id ++ "?t=30s".data]
    = id ++ "?t=30s".data from by simp [pyLast]]
  have hs2 : splitChar '?' (id ++ "?t=30s".data) = [id, "t=30s".data] := by
    rw [splitChar_append, splitChar_id hid (by decide)]
    rw [show splitChar '?' ("?t=30s".data) = [[], "t=30s".data] from by decide]
    simp [glueSplit]
  rw [hs2]
  rfl

theorem extract_embedUrl {id : List Char} (h : validId id) :
    extract_video_id (embedUrl id) = some id := by
  obtain ⟨hlen, hid⟩ := h
  have hcat : "https://www.youtube.com/".data ++ "embed/".data
      = "https://www.youtube.com/embed/".data := by decide
  have hassoc : embedUrl id = "https://www.youtube.com/".data ++ ("embed/".data ++ id) := by
    rw [embedUrl, ← hcat, List.append_assoc]
  have hns : hasSub "youtu.be".data (embedUrl id) = false := by
    rw [hasSub_eq_false_iff]
    have h2 : embedUrl id = "https://www.youtube.com/embed/".data ++ (id ++ []) := by
      rw [embedUrl, List.append_nil]
    rw [h2]
    exact youtuBe_not_occurring _ _ hlen hid (by decide) (by decide)
  have hkeep : ("embed/".data ++ id).filter
      (fun c => !(c = '\t' || c = '\x0d' || c = '\n')) = "embed/".data ++ id := by
    rw [List.filter_append, keep_of_id hid]
    rw [show ("embed/".data).filter
      (fun c => !(c = '\t' || c = '\x0d' || c = '\n')) = "embed/".data from by decide]
  have hup := urlparse_yt _ hkeep
  rw [← hassoc] at hup
  have htw1 : ("embed/".data ++ id).takeWhile (fun c => c ≠ '#')
      = "embed/".data ++ id := by
    rw [takeWhile_append_of_left_all _ (by decide), takeWhile_ne_id hid (by decide)]
  have htw2 : ("embed/".data ++ id).takeWhile (fun c => c ≠ '?')
      = "embed/".data ++ id := by
    rw [takeWhile_append_of_left_all _ (by decide), takeWhile_ne_id hid (by decide)]
  rw [htw1, htw2] at hup
  have hq : ("embed/".data ++ id).drop (("embed/".data ++ id).length + 1) = [] :=
    List.drop_eq_nil_of_le (by omega)
  rw [hq] at hup
  rw [extract_video_id]
  rw [if_neg (show ¬ hasSub "youtu.be".data (embedUrl id) = true from
    fun ht => Bool.false_ne_true (hns ▸ ht))]
  rw [hup]
  have hnet : hasSub "youtube.com".data "www.youtube.com".data = true := by decide
  have hq0 : qsFirstV ([] : List Char) = none := by decide
  have hemb : hasSub "embed".data ('/' :: ("embed/".data ++ id)) = true := by
    rw [hasSub_iff_occurs]
    exact ⟨['/'], '/' :: id, rfl⟩
  have hsp : splitChar '/' ('/' :: ("embed/".data ++ id)) = [[], "embed".data, id] := by
    rw [show ('/' :: ("embed/".data ++ id)) = "/embed/".data ++ id from rfl]
    rw [splitChar_append]
    rw [show splitChar '/' ("/embed/".data) = [[], "embed".data, []] from by decide]
    rw [splitChar_id hid (by decide)]
    simp [glueSplit]
  simp only [hnet, hq0, hemb, hsp, if_true]
  simp [pyLast]

theorem extract_embedUrlParams {id : List Char} (h : validId id) :
    extract_video_id (embedUrlParams id) = some id := by
  obtain ⟨hlen, hid⟩ := h
  have hcat : "https://www.youtube.com/".data ++ "embed/".data
      = "https://www.youtube.com/embed/".data := by decide
  have hassoc : embedUrlParams id
      = "https://www.youtube.com/".data ++ ("embed/".data ++ (id ++ "?autoplay=1".data)) := by
    rw [embedUrlParams, List.append_assoc, ← hcat, List.append_assoc]
  have hns : hasSub "youtu.be".data (embedUrlParams id) = false := by
    rw [hasSub_eq_false_iff]
    have h2 : embedUrlParams id
        = "https://www.youtube.com/embed/".data ++ (id ++ "?autoplay=1".data) := by
      rw [embedUrlParams, List.append_assoc]
    rw [h2]
    exact youtuBe_not_occurring _ _ hlen hid (by decide) (by decide)
  have hkeep : ("embed/".data ++ (id ++ "?autoplay=1".data)).filter
      (fun c => !(c = '\t' || c = '\x0d' || c = '\n'))
      = "embed/".data ++ (id ++ "?autoplay=1".data) := by
    rw [List.filter_append, List.filter_append, keep_of_id hid]
    rw [show ("embed/".data).filter
      (fun c => !(c = '\t' || c = '\x0d' || c = '\n')) = "embed/".data from by decide]
    rw [show ("?autoplay=1".data).filter
      (fun c => !(c = '\t' || c = '\x0d' || c = '\n')) = "?autoplay=1".data from by decide]
  have hup := urlparse_yt _ hkeep
  rw [← hassoc] at hup
  have htw1 : ("embed/".data ++ (id ++ "?autoplay=1".data)).takeWhile (fun c => c ≠ '#')
      = "embed/".data ++ (id ++ "?autoplay=1".data) := by
    rw [takeWhile_append_of_left_all _ (by decide),
        takeWhile_append_of_left_all _ (takeWhile_ne_id hid (by decide))]
    rw [show ("?autoplay=1".data).takeWhile (fun c => c ≠ '#')
      = "?autoplay=1".data from by decide]
  have htw2 : ("embed/".data ++ (id ++ "?autoplay=1".data)).takeWhile (fun c => c ≠ '?')
      = "embed/".data ++ id := by
    rw [takeWhile_append_of_left_all _ (by decide),
        takeWhile_append_of_left_all _ (takeWhile_ne_id hid (by decide))]
    rw [show ("?autoplay=1".data).takeWhile (fun c => c ≠ '?') = [] from by decide]
    rw [List.append_nil]
  rw [htw1, htw2] at hup
  have hq : ("embed/".data ++ (id ++ "?autoplay=1".data)).drop
      (("embed/".data ++ id).length + 1) = "autoplay=1".data := by
    have hL : ("embed/".data ++ id).length + 1 = 18 := by
      simp [List.length_append, hlen]
    rw [hL, List.drop_append_eq_append_drop]
    rw [show ("embed/".data).drop 18 = [] from by decide]
    rw [show (18 : Nat) - ("embed/".data).length = 12 from by decide]
    rw [List.drop_append_eq_append_drop]
    rw [List.drop_eq_nil_of_le (by omega)]
    rw [hlen]
    decide
  rw [hq] at hup
  rw [extract_video_id]
  rw [if_neg (show ¬ hasSub "youtu.be".data (embedUrlParams id) = true from
    fun ht => Bool.false_ne_true (hns ▸ ht))]
  rw [hup]
  have hnet : hasSub "youtube.com".data "www.youtube.com".data = true := by decide
  have hq0 : qsFirstV ("autoplay=1".data) = none := by decide
  have hemb : hasSub "embed".data ('/' :: ("embed/".data ++ id)) = true := by
    rw [hasSub_iff_occurs]
    exact ⟨['/'], '/' :: id, rfl⟩
  have hsp : splitChar '/' ('/' :: ("embed/".data ++ id)) = [[], "embed".data, id] := by
    rw [show ('/' :: ("embed/".data ++ id)) = "/embed/".data ++ id from rfl]
    rw [splitChar_append]
    rw [show splitChar '/' ("/embed/".data) = [[], "embed".data, []] from by decide]
    rw [splitChar_id hid (by decide)]
    simp [glueSplit]
  simp only [hnet, hq0, hemb, hsp, if_true]
  simp [pyLast]

theorem extract_shortsUrl {id : List Char} (h : validId id) :
    extract_video_id (shortsUrl id) = some id := by
  obtain ⟨hlen, hid⟩ := h
  have hie : id.isEmpty = false := by
    cases id
    · simp at hlen
    · rfl
  have hcat : "https://www.youtube.com/".data ++ "shorts/".data
      = "https://www.youtube.com/shorts/".data := by decide
  have hassoc : shortsUrl id = "https://www.youtube.com/".data ++ ("shorts/".data ++ id) := by
    rw [shortsUrl, ← hcat, List.append_assoc]
  have hns : hasSub "youtu.be".data (shortsUrl id) = false := by
    rw [hasSub_eq_false_iff]
    have h2 : shortsUrl id = "https://www.youtube.com/shorts/".data ++ (id ++ []) := by
      rw [shortsUrl, List.append_nil]
    rw [h2]
    exact youtuBe_not_occurring _ _ hlen hid (by decide) (by decide)
  have hkeep : ("shorts/".data ++ id).filter
      (fun c => !(c = '\t' || c = '\x0d' || c = '\n')) = "shorts/".data ++ id := by
    rw [List.filter_append, keep_of_id hid]
    rw [show ("shorts/".data).filter
      (fun c => !(c = '\t' || c = '\x0d' || c = '\n')) = "shorts/".data from by decide]
  have hup := urlparse_yt _ hkeep
  rw [← hassoc] at hup
  have htw1 : ("shorts/".data ++ id).takeWhile (fun c => c ≠ '#')
      = "shorts/".data ++ id := by
    rw [takeWhile_append_of_left_all _ (by decide), takeWhile_ne_id hid (by decide)]
  have htw2 : ("shorts/".data ++ id).takeWhile (fun c => c ≠ '?')
      = "shorts/".data ++ id := by
    rw [takeWhile_append_of_left_all _ (by decide), takeWhile_ne_id hid (by decide)]
  rw [htw1, htw2] at hup
  have hq : ("shorts/".data ++ id).drop (("shorts/".data ++ id).length + 1) = [] :=
    List.drop_eq_nil_of_le (by omega)
  rw [hq] at hup
  rw [extract_video_id]
  rw [if_neg (show ¬ hasSub "youtu.be".data (shortsUrl id) = true from
    fun ht => Bool.false_ne_true (hns ▸ ht))]
  rw [hup]
  have hnet : hasSub "youtube.com".data "www.youtube.com".data = true := by decide
  have hq0 : qsFirstV ([] : List Char) = none := by decide
  have hsp : splitChar '/' ('/' :: ("shorts/".data ++ id)) = [[], "shorts".data, id] := by
    rw [show ('/' :: ("shorts/".data ++ id)) = "/shorts/".data ++ id from rfl]
    rw [splitChar_append]
    rw [show splitChar '/' ("/shorts/".data) = [[], "shorts".data, []] from by decide]
    rw [splitChar_id hid (by decide)]
    simp [glueSplit]
  by_cases hemb : hasSub "embed".data ('/' :: ("shorts/".data ++ id)) = true
  · simp only [hnet, hq0, hemb, hsp, if_true]
    simp [pyLast]
  · simp only [hnet, hq0, hsp, if_true, if_neg hemb]
    simp [List.filter, hie, hlen, List.getLastD]

theorem extract_shortsUrlParams {id : List Char} (h : validId id) :
    extract_video_id (shortsUrlParams id) = some id := by
  obtain ⟨hlen, hid⟩ := h
  have hie : id.isEmpty = false := by
    cases id
    · simp at hlen
    · rfl
  have hcat : "https://www.youtube.com/".data ++ "shorts/".data
      = "https://www.youtube.com/shorts/".data := by decide
  have hassoc : shortsUrlParams id
      = "https://www.youtube.com/".data ++ ("shorts/".data ++ (id ++ "?feature=share".data)) := by
    rw [shortsUrlParams, List.append_assoc, ← hcat, List.append_assoc]
  have hns : hasSub "youtu.be".data (shortsUrlParams id) = false := by
    rw [hasSub_eq_false_iff]
    have h2 : shortsUrlParams id
        = "https://www.youtube.com/shorts/".data ++ (id ++ "?feature=share".data) := by
      rw [shortsUrlParams, List.append_assoc]
    rw [h2]
    exact youtuBe_not_occurring _ _ hlen hid (by decide) (by decide)
  have hkeep : ("shorts/".data ++ (id ++ "?feature=share".data)).filter
      (fun c => !(c = '\t' || c = '\x0d' || c = '\n'))
      = "shorts/".data ++ (id ++ "?feature=share".data) := by
    rw [List.filter_append, List.filter_append, keep_of_id hid]
    rw [show ("shorts/".data).filter
      (fun c => !(c = '\t' || c = '\x0d' || c = '\n')) = "shorts/".data from by decide]
    rw [show ("?feature=share".data).filter
      (fun c => !(c = '\t' || c = '\x0d' || c = '\n')) = "?feature=share".data from by decide]
  have hup := urlparse_yt _ hkeep
  rw [← hassoc] at hup
  have htw1 : ("shorts/".data ++ (id ++ "?feature=share".data)).takeWhile (fun c => c ≠ '#')
      = "shorts/".data ++ (id ++ "?feature=share".data) := by
    rw [takeWhile_append_of_left_all _ (by decide),
        takeWhile_append_of_left_all _ (takeWhile_ne_id hid (by decide))]
    rw [show ("?feature=share".data).takeWhile (fun c => c ≠ '#')
      = "?feature=share".data from by decide]
  have htw2 : ("shorts/".data ++ (id ++ "?feature=share".data)).takeWhile (fun c => c ≠ '?')
      = "shorts/".data ++ id := by
    rw [takeWhile_append_of_left_all _ (by decide),
        takeWhile_append_of_left_all _ (takeWhile_ne_id hid (by decide))]
    rw [show ("?feature=share".data).takeWhile (fun c => c ≠ '?') = [] from by decide]
    rw [List.append_nil]
  rw [htw1, htw2] at hup
  have hq : ("shorts/".data ++ (id ++ "?feature=share".data)).drop
      (("shorts/".data ++ id).length + 1) = "feature=share".data := by
    have hL : ("shorts/".data ++ id).length + 1 = 19 := by
      simp [List.length_append, hlen]
    rw [hL, List.drop_append_eq_append_drop]
    rw [show ("shorts/".data).drop 19 = [] from by decide]
    rw [show (19 : Nat) - ("shorts/".data).length = 12 from by decide]
    rw [List.drop_append_eq_append_drop]
    rw [List.drop_eq_nil_of_le (by omega)]
    rw [hlen]
    decide
  rw [hq] at hup
  rw [extract_video_id]
  rw [if_neg (show ¬ hasSub "youtu.be".data (shortsUrlParams id) = true from
    fun ht => Bool.false_ne_true (hns ▸ ht))]
  rw [hup]
  have hnet : hasSub "youtube.com".data "www.youtube.com".data = true := by decide
  have hq0 : qsFirstV ("feature=share".data) = none := by decide
  have hsp : splitChar '/' ('/' :: ("shorts/".data ++ id)) = [[], "shorts".data, id] := by
    rw [show ('/' :: ("shorts/".data ++ id)) = "/shorts/".data ++ id from rfl]
    rw [splitChar_append]
    rw [show splitChar '/' ("/shorts/".data) = [[], "shorts".data, []] from by decide]
    rw [splitChar_id hid (by decide)]
    simp [glueSplit]
  by_cases hemb : hasSub "embed".data ('/' :: ("shorts/".data ++ id)) = true
  · simp only [hnet, hq0, hemb, hsp, if_true]
    simp [pyLast]
  · simp only [hnet, hq0, hsp, if_true, if_neg hemb]
    simp [List.filter, hie, hlen, List.getLastD]

/-- C3: for every 11-character video identifier, every recognized URL shape
referring to that video — standard watch (with or without extra query
parameters, and with the `v` parameter in any position), shortened youtu.be
(with or without extra query parameters), embed, and shorts — yields the
same identifier under `extract_video_id`. -/
theorem C3_extract_same_id_all_shapes (id : List Char) (h : validId id) :
    extract_video_id (watchUrl id) = some id ∧
    extract_video_id (watchUrlParams id) = some id ∧
    extract_video_id (watchUrlPre id) = some id ∧
    extract_video_id (shortUrl id) = some id ∧
    extract_video_id (shortUrlParams id) = some id ∧
    extract_video_id (embedUrl id) = some id ∧
    extract_video_id (embedUrlParams id) = some id ∧
    extract_video_id (shortsUrl id) = some id ∧
    extract_video_id (shortsUrlParams id) = some id :=
  ⟨extract_watchUrl h, extract_watchUrlParams h, extract_watchUrlPre h,
   extract_shortUrl h, extract_shortUrlParams h, extract_embedUrl h,
   extract_embedUrlParams h, extract_shortsUrl h, extract_shortsUrlParams h⟩

/-- Witness for C3 at the concrete identifier `dQw4w9WgXcQ`. -/
theorem C3_extract_same_id_all_shapes_witness :
    validId ("dQw4w9WgXcQ".data) ∧
    extract_video_id (watchUrl "dQw4w9WgXcQ".data) = some ("dQw4w9WgXcQ".data) ∧
    extract_video_id (shortUrl "dQw4w9WgXcQ".data) = some ("dQw4w9WgXcQ".data) :=
  ⟨by decide, (C3_extract_same_id_all_shapes _ (by decide)).1,
   (C3_extract_same_id_all_shapes _ (by decide)).2.2.2.1⟩

/-! ## The metadata resolver's format pipeline (`get_video_info`, production)

Embeds the format-list processing of `src/production.py` lines 161–214:
filter the collaborator's raw entries to progressive mp4 formats with an
allow-listed resolution label, deduplicate by label keeping the first
occurrence, stable-sort by label priority, then append the first compatible
audio-only entry. -/

/-- A raw format dictionary from the collaborator (`info['formats']`),
restricted to the keys the source reads; `none` models an absent key. -/
structure RawFormat where
  vcodec : Option String
  acodec : Option String
  ext : Option String
  height : Option Nat
  format_id : Option String
  filesize : Option Nat
  filesize_approx : Option Nat
  abr : Option ℚ
deriving DecidableEq

/-- Default raw format used only to make positional indexing total. -/
def dRaw : RawFormat := ⟨none, none, none, none, none, none, none, none⟩

/-- A format descriptor as emitted in the JSON response. -/
structure FormatDescriptor where
  type : String
  quality : String
  mime_type : String
  itag : String
  filesize_mb : Option ℚ
  format_id : String
  ext : String
deriving DecidableEq

def quality_priorities : List String := ["1080p", "720p", "480p", "360p", "240p"]

/-- The label `f"{fmt.get('height')}p"`. -/
def qualityOf (f : RawFormat) : String := toString (f.height.getD 0) ++ "p"

/-- The video-format filter: `vcodec != 'none' and acodec != 'none' and
ext in ['mp4'] and height and format_id` (Python truthiness for the last
two). -/
def videoPass (f : RawFormat) : Bool :=
  f.vcodec ≠ some "none" && f.acodec ≠ some "none" && f.ext = some "mp4" &&
    f.height.getD 0 ≠ 0 && f.format_id.getD "" ≠ ""

/-- Python `a or b` on optional sizes (`0` and `None` are falsy). -/
def pyOrNat : Option Nat → Option Nat → Option Nat
  | some n, b => if n = 0 then b else some n
  | none, b => b

/-- Python `round(x, 1)` modelled as nearest tenth (Python's ties-to-even on binary
floats differs only at exact ties, which no claim depends on). -/
def round1 (q : ℚ) : ℚ := (round (q * 10) : ℚ) / 10

/-- Size `round(filesize / (1024 * 1024), 1) if filesize else None` where
`filesize = fmt.get('filesize') or fmt.get('filesize_approx')`. -/
def filesizeMb (f : RawFormat) : Option ℚ :=
  match pyOrNat f.filesize f.filesize_approx with
  | some n => if n = 0 then none else some (round1 ((n : ℚ) / (1024 * 1024)))
  | none => none

def mkVideoFD (f : RawFormat) : FormatDescriptor :=
  { type := "video", quality := qualityOf f, mime_type := "video/mp4",
    itag := f.format_id.getD "", filesize_mb := filesizeMb f,
    format_id := f.format_id.getD "", ext := "mp4" }

/-- The video-collection loop with its `seen_formats` dedup set. -/
def buildVideos : List RawFormat → List String → List FormatDescriptor
  | [], _ => []
  | f :: fs, seen =>
    if videoPass f && !seen.contains (qualityOf f) &&
        quality_priorities.contains (qualityOf f)
    then mkVideoFD f :: buildVideos fs (qualityOf f :: seen)
    else buildVideos fs seen

/-- The sort key: `quality_priorities.index(q)` when present, else `99`. -/
def priorityIdx (q : String) : Nat :=
  (quality_priorities.findIdx? (fun p => p = q)).getD 99

/-- The sort order used by `formats.sort(key=...)`. -/
@[reducible] def fdLE (a b : FormatDescriptor) : Prop :=
  priorityIdx a.quality ≤ priorityIdx b.quality

/-- The audio-format filter: `vcodec == 'none' and acodec != 'none' and
ext in ['mp4', 'm4a'] and format_id`. -/
def audioPass (f : RawFormat) : Bool :=
  f.vcodec = some "none" && f.acodec ≠ some "none" &&
    (f.ext = some "mp4" || f.ext = some "m4a") && f.format_id.getD "" ≠ ""

/-- Label `f"MP3 {int(abr)}kbps" if abr else "MP3"` with `abr = fmt.get('abr', 0)`
(`int` truncates; bitrates are non-negative, so floor agrees). -/
def audioQuality (f : RawFormat) : String :=
  if f.abr.getD 0 ≠ 0 then "MP3 " ++ toString ⌊f.abr.getD 0⌋ ++ "kbps" else "MP3"

def mkAudioFD (f : RawFormat) : FormatDescriptor :=
  { type := "audio", quality := audioQuality f, mime_type := "audio/mp4",
    itag := f.format_id.getD "", filesize_mb := filesizeMb f,
    format_id := f.format_id.getD "", ext := "mp4" }

/-- The audio loop: append the first matching entry, then `break`. -/
def audioPart (raw : List RawFormat) : List FormatDescriptor :=
  match raw.find? audioPass with
  | some f => [mkAudioFD f]
  | none => []

/-- The complete format pipeline: collect videos, stable-sort by priority
(`list.sort` with key — Python's sort is stable, and a stable sort by a
total preorder key is extensionally unique, so it is modelled by the stable
`List.insertionSort`), then append at most one audio descriptor. -/
def processFormats (raw : List RawFormat) : List FormatDescriptor :=
  (buildVideos raw []).insertionSort fdLE ++ audioPart raw

/-! ### Characterization of the video-collection loop -/

theorem buildVideos_shape : ∀ {l : List RawFormat} {seen : List String}
    {d : FormatDescriptor}, d ∈ buildVideos l seen → ∃ f, d = mkVideoFD f := by
  intro l
  induction l with
  | nil => intro seen d h; simp [buildVideos] at h
  | cons f fs ih =>
    intro seen d h
    simp only [buildVideos] at h
    split at h
    · rcases List.mem_cons.mp h with rfl | h2
      · exact ⟨f, rfl⟩
      · exact ih h2
    · exact ih h

/-- Soundness with first-occurrence: every emitted video descriptor comes
from some raw entry that passes the filter, has an allow-listed label not in
the initial seen set, and is the first passing entry with its label. -/
theorem buildVideos_mem_first : ∀ (l : List RawFormat) (seen : List String)
    (d : FormatDescriptor), d ∈ buildVideos l seen →
    ∃ i, i < l.length ∧
      videoPass (l.getD i dRaw) = true ∧
      qualityOf (l.getD i dRaw) ∈ quality_priorities ∧
      qualityOf (l.getD i dRaw) ∉ seen ∧
      d = mkVideoFD (l.getD i dRaw) ∧
      ∀ j, j < i → videoPass (l.getD j dRaw) = true →
        qualityOf (l.getD j dRaw) ≠ qualityOf (l.getD i dRaw) := by
  intro l
  induction l with
  | nil => intro seen d h; simp [buildVideos] at h
  | cons f fs ih =>
    intro seen d h
    simp only [buildVideos] at h
    by_cases hc : (videoPass f && !seen.contains (qualityOf f) &&
        quality_priorities.contains (qualityOf f)) = true
    · rw [if_pos hc] at h
      obtain ⟨⟨hvp, hns⟩, hpr⟩ : (videoPass f = true ∧ qualityOf f ∉ seen) ∧
          qualityOf f ∈ quality_priorities := by
        simpa [Bool.and_eq_true] using hc
      rcases List.mem_cons.mp h with rfl | hrec
      · exact ⟨0, by simp, by simpa using hvp, by simpa using hpr,
          by simpa using hns, by simp, by omega⟩
      · obtain ⟨i, hi, hp, hq, hs, hd, hfirst⟩ := ih (qualityOf f :: seen) d hrec
        have hs2 : qualityOf (fs.getD i dRaw) ≠ qualityOf f ∧
            qualityOf (fs.getD i dRaw) ∉ seen := by
          constructor
          · intro he; exact hs (by rw [he]; exact List.mem_cons_self _ _)
          · intro he; exact hs (List.mem_cons_of_mem _ he)
        refine ⟨i + 1, by simp only [List.length_cons]; omega, ?_, ?_, ?_, ?_, ?_⟩
        · simpa only [List.getD_cons_succ] using hp
        · simpa only [List.getD_cons_succ] using hq
        · simpa only [List.getD_cons_succ] using hs2.2
        · simpa only [List.getD_cons_succ] using hd
        · intro j hj hjp
          cases j with
          | zero =>
            simp only [List.getD_cons_zero, List.getD_cons_succ] at hjp ⊢
            exact hs2.1.symm
          | succ j' =>
            simp only [List.getD_cons_succ] at hjp ⊢
            exact hfirst j' (by omega) hjp
    · rw [if_neg hc] at h
      obtain ⟨i, hi, hp, hq, hs, hd, hfirst⟩ := ih seen d h
      refine ⟨i + 1, by simp only [List.length_cons]; omega, ?_, ?_, ?_, ?_, ?_⟩
      · simpa only [List.getD_cons_succ] using hp
      · simpa only [List.getD_cons_succ] using hq
      · simpa only [List.getD_cons_succ] using hs
      · simpa only [List.getD_cons_succ] using hd
      · intro j hj hjp
        cases j with
        | zero =>
          simp only [List.getD_cons_zero, List.getD_cons_succ] at hjp ⊢
          intro heq
          have himp : qualityOf f ∉ seen → qualityOf f ∉ quality_priorities := by
            simpa [Bool.and_eq_true, hjp] using hc
          exact (himp (heq ▸ hs)) (heq ▸ hq)
        | succ j' =>
          simp only [List.getD_cons_succ] at hjp ⊢
          exact hfirst j' (by omega) hjp

/-- Completeness: the first passing entry with an allow-listed label not in
the seen set is emitted. -/
theorem buildVideos_mem_of_first : ∀ (l : List RawFormat) (seen : List String)
    (i : Nat), i < l.length →
    videoPass (l.getD i dRaw) = true →
    qualityOf (l.getD i dRaw) ∈ quality_priorities →
    qualityOf (l.getD i dRaw) ∉ seen →
    (∀ j, j < i → videoPass (l.getD j dRaw) = true →
      qualityOf (l.getD j dRaw) ≠ qualityOf (l.getD i dRaw)) →
    mkVideoFD (l.getD i dRaw) ∈ buildVideos l seen := by
  intro l
  induction l with
  | nil => intro seen i hi; simp at hi
  | cons f fs ih =>
    intro seen i hi hp hq hs hfirst
    simp only [buildVideos]
    by_cases hc : (videoPass f && !seen.contains (qualityOf f) &&
        quality_priorities.contains (qualityOf f)) = true
    · rw [if_pos hc]
      obtain ⟨⟨hvp, hns⟩, hpr⟩ : (videoPass f = true ∧ qualityOf f ∉ seen) ∧
          qualityOf f ∈ quality_priorities := by
        simpa [Bool.and_eq_true] using hc
      cases i with
      | zero => simp only [List.getD_cons_zero]; exact List.mem_cons_self _ _
      | succ i' =>
        apply List.mem_cons_of_mem
        simp only [List.getD_cons_succ] at hp hq hs ⊢
        refine ih (qualityOf f :: seen) i' (by simp only [List.length_cons] at hi; omega)
          hp hq ?_ ?_
        · intro hmem
          rcases List.mem_cons.mp hmem with heq | hmem2
          · exact hfirst 0 (by omega) (by simpa using hvp)
              (by simpa only [List.getD_cons_zero, List.getD_cons_succ] using heq.symm)
          · exact hs hmem2
        · intro j hj hjp
          have := hfirst (j + 1) (by omega)
            (by simpa only [List.getD_cons_succ] using hjp)
          simpa only [List.getD_cons_succ] using this
    · rw [if_neg hc]
      cases i with
      | zero =>
        simp only [List.getD_cons_zero] at hp hq hs
        exfalso
        apply hc
        simp [Bool.and_eq_true, hp, hq, hs]
      | succ i' =>
        simp only [List.getD_cons_succ] at hp hq hs ⊢
        refine ih seen i' (by simp only [List.length_cons] at hi; omega) hp hq hs ?_
        intro j hj hjp
        have := hfirst (j + 1) (by omega)
          (by simpa only [List.getD_cons_succ] using hjp)
        simpa only [List.getD_cons_succ] using this

/-- The emitted qualities are distinct and avoid the seen set. -/
theorem buildVideos_quality_nodup : ∀ (l : List RawFormat) (seen : List String),
    ((buildVideos l seen).map (fun d => d.quality)).Nodup ∧
    ∀ q ∈ (buildVideos l seen).map (fun d => d.quality), q ∉ seen := by
  intro l
  induction l with
  | nil => intro seen; simp [buildVideos]
  | cons f fs ih =>
    intro seen
    simp only [buildVideos]
    by_cases hc : (videoPass f && !seen.contains (qualityOf f) &&
        quality_priorities.contains (qualityOf f)) = true
    · rw [if_pos hc]
      obtain ⟨⟨hvp, hns⟩, hpr⟩ : (videoPass f = true ∧ qualityOf f ∉ seen) ∧
          qualityOf f ∈ quality_priorities := by
        simpa [Bool.and_eq_true] using hc
      obtain ⟨hnd, havoid⟩ := ih (qualityOf f :: seen)
      have hqf : (mkVideoFD f).quality = qualityOf f := rfl
      constructor
      · simp only [List.map_cons, List.nodup_cons, hqf]
        refine ⟨fun hmem => ?_, hnd⟩
        exact (havoid _ hmem) (List.mem_cons_self _ _)
      · intro q hq2
        simp only [List.map_cons, List.mem_cons, hqf] at hq2
        rcases hq2 with rfl | hq3
        · exact hns
        · intro hmem
          exact (havoid q hq3) (List.mem_cons_of_mem _ hmem)
    · rw [if_neg hc]
      exact ih seen

instance : IsTotal FormatDescriptor fdLE := ⟨fun x y => Nat.le_total (priorityIdx x.quality) (priorityIdx y.quality)⟩

instance : IsTrans FormatDescriptor fdLE := ⟨fun _ _ _ hab hbc => Nat.le_trans hab hbc⟩

/-- Lookup `find?` returns the entry at the first position satisfying the
predicate. -/
theorem find?_eq_getD_of_first {p : RawFormat → Bool} : ∀ {l : List RawFormat} {i : Nat},
    i < l.length → p (l.getD i dRaw) = true →
    (∀ j, j < i → p (l.getD j dRaw) = false) →
    l.find? p = some (l.getD i dRaw) := by
  intro l
  induction l with
  | nil => intro i hi; simp at hi
  | cons f fs ih =>
    intro i hi hp hfirst
    cases i with
    | zero =>
      simp only [List.getD_cons_zero] at hp ⊢
      exact List.find?_cons_of_pos _ hp
    | succ i' =>
      have h0 : p f = false := by
        simpa only [List.getD_cons_zero] using hfirst 0 (by omega)
      rw [List.find?_cons_of_neg _ (by simp [h0])]
      simp only [List.getD_cons_succ] at hp ⊢
      refine ih (by simp only [List.length_cons] at hi; omega) hp ?_
      intro j hj
      simpa only [List.getD_cons_succ] using hfirst (j + 1) (by omega)

theorem audioPart_type : ∀ {raw : List RawFormat} {d : FormatDescriptor},
    d ∈ audioPart raw → d.type = "audio" := by
  intro raw d hd
  rw [audioPart] at hd
  cases hfind : raw.find? audioPass with
  | none => rw [hfind] at hd; simp at hd
  | some f =>
    rw [hfind] at hd
    rcases (by simpa using hd : d = mkAudioFD f) with rfl
    rfl

/-- C4: the resolver's output is a block of video descriptors sorted by
non-decreasing priority index (descending resolution; unrecognized labels
carry index 99 and therefore may only appear after all recognized labels),
followed by at most one audio descriptor. -/
theorem C4_format_ordering (raw : List RawFormat) :
    ∃ vs as, processFormats raw = vs ++ as ∧
      vs.Pairwise (fun a b => priorityIdx a.quality ≤ priorityIdx b.quality) ∧
      (∀ d ∈ vs, d.type = "video") ∧
      as.length ≤ 1 ∧
      (∀ d ∈ as, d.type = "audio") := by
  refine ⟨(buildVideos raw []).insertionSort fdLE, audioPart raw, rfl, ?_, ?_, ?_, ?_⟩
  · exact List.sorted_insertionSort fdLE (buildVideos raw [])
  · intro d hd
    have hmem : d ∈ buildVideos raw [] :=
      (List.perm_insertionSort fdLE _).mem_iff.mp hd
    obtain ⟨f, rfl⟩ := buildVideos_shape hmem
    rfl
  · rw [audioPart]
    cases hfind : raw.find? audioPass <;> simp
  · intro d hd
    exact audioPart_type hd

/-- Witness for C4 at a concrete format list echoing the spec's example
(raw order 360p, 1080p, 480p plus one audio entry). -/
theorem C4_format_ordering_witness :
    ∃ vs as,
      processFormats
        [⟨some "avc1", some "mp4a", some "mp4", some 360, some "18", none, none, none⟩,
         ⟨some "avc1", some "mp4a", some "mp4", some 1080, some "37", none, none, none⟩,
         ⟨some "avc1", some "mp4a", some "mp4", some 480, some "35", none, none, none⟩,
         ⟨some "none", some "mp4a", some "m4a", none, some "139", none, none, some 48⟩]
        = vs ++ as ∧
      vs.Pairwise (fun a b => priorityIdx a.quality ≤ priorityIdx b.quality) ∧
      (∀ d ∈ vs, d.type = "video") ∧
      as.length ≤ 1 ∧
      (∀ d ∈ as, d.type = "audio") :=
  C4_format_ordering _

/-- C10: every descriptor the resolver emits — video and audio alike —
carries extension `mp4`. -/
theorem C10_all_ext_mp4 (raw : List RawFormat) :
    ∀ d ∈ processFormats raw, d.ext = "mp4" := by
  intro d hd
  rcases List.mem_append.mp hd with hv | ha
  · have hmem : d ∈ buildVideos raw [] :=
      (List.perm_insertionSort fdLE _).mem_iff.mp hv
    obtain ⟨f, rfl⟩ := buildVideos_shape hmem
    rfl
  · rw [audioPart] at ha
    cases hfind : raw.find? audioPass with
    | none => rw [hfind] at ha; simp at ha
    | some f =>
      rw [hfind] at ha
      rcases (by simpa using ha : d = mkAudioFD f) with rfl
      rfl

/-- Witness for C10: the audio descriptor of an `m4a` stream still carries
extension `mp4`. -/
theorem C10_all_ext_mp4_witness :
    (mkAudioFD ⟨some "none", some "mp4a", some "m4a", none, some "139", none, none, some 48⟩).ext
      = "mp4" :=
  C10_all_ext_mp4
    [⟨some "none", some "mp4a", some "m4a", none, some "139", none, none, some 48⟩]
    _ (by decide)

/-- C7: the video descriptors emitted are exactly those built from the
progressive mp4 entries with an allow-listed resolution label, one per
label, each realized by the first passing occurrence of its label. -/
theorem C7_video_selection (raw : List RawFormat) :
    (∀ d ∈ processFormats raw, d.type = "video" →
      ∃ i, i < raw.length ∧
        videoPass (raw.getD i dRaw) = true ∧
        qualityOf (raw.getD i dRaw) ∈ quality_priorities ∧
        d = mkVideoFD (raw.getD i dRaw) ∧
        ∀ j, j < i → videoPass (raw.getD j dRaw) = true →
          qualityOf (raw.getD j dRaw) ≠ qualityOf (raw.getD i dRaw)) ∧
    (∀ i, i < raw.length →
      videoPass (raw.getD i dRaw) = true →
      qualityOf (raw.getD i dRaw) ∈ quality_priorities →
      (∀ j, j < i → videoPass (raw.getD j dRaw) = true →
        qualityOf (raw.getD j dRaw) ≠ qualityOf (raw.getD i dRaw)) →
      mkVideoFD (raw.getD i dRaw) ∈ processFormats raw) ∧
    (((processFormats raw).filter (fun d => d.type == "video")).map
      (fun d => d.quality)).Nodup := by
  refine ⟨?_, ?_, ?_⟩
  · intro d hd htype
    rcases List.mem_append.mp hd with hv | ha
    · have hmem : d ∈ buildVideos raw [] :=
        (List.perm_insertionSort fdLE _).mem_iff.mp hv
      obtain ⟨i, hi, hp, hq, -, hd2, hfirst⟩ := buildVideos_mem_first raw [] d hmem
      exact ⟨i, hi, hp, hq, hd2, hfirst⟩
    · rw [audioPart_type ha] at htype
      exact absurd htype (by decide)
  · intro i hi hp hq hfirst
    have hmem := buildVideos_mem_of_first raw [] i hi hp hq (List.not_mem_nil _) hfirst
    exact List.mem_append_left _ ((List.perm_insertionSort fdLE _).mem_iff.mpr hmem)
  · have hfa : (processFormats raw).filter (fun d => d.type == "video")
        = (buildVideos raw []).insertionSort fdLE := by
      rw [processFormats, List.filter_append]
      have h1 : (audioPart raw).filter (fun d => d.type == "video") = [] := by
        rw [List.filter_eq_nil_iff]
        intro d hd
        rw [audioPart_type hd]
        decide
      have h2 : ((buildVideos raw []).insertionSort fdLE).filter
          (fun d => d.type == "video") = (buildVideos raw []).insertionSort fdLE := by
        rw [List.filter_eq_self]
        intro d hd
        obtain ⟨f, rfl⟩ := buildVideos_shape
          ((List.perm_insertionSort fdLE _).mem_iff.mp hd)
        rfl
      rw [h1, h2, List.append_nil]
    rw [hfa]
    have hperm := (List.perm_insertionSort fdLE (buildVideos raw [])).map
      (fun d => d.quality)
    exact hperm.nodup_iff.mpr (buildVideos_quality_nodup raw []).1

/-- Witness for C7 at a concrete format list with a duplicate label. -/
theorem C7_video_selection_witness :
    mkVideoFD ⟨some "avc1", some "mp4a", some "mp4", some 360, some "18", none, none, none⟩ ∈
      processFormats
        [⟨some "avc1", some "mp4a", some "mp4", some 360, some "18", none, none, none⟩,
         ⟨some "avc1", some "mp4a", some "mp4", some 360, some "18b", none, none, none⟩] :=
  (C7_video_selection _).2.1 0 (by decide) (by decide) (by decide) (by omega)

/-- A compatible audio-only entry with the lower bitrate, listed first. -/
def cexAudioLow : RawFormat :=
  ⟨some "none", some "mp4a.40.2", some "m4a", none, some "139", none, none, some 48⟩

/-- A compatible audio-only entry with the higher bitrate, listed second. -/
def cexAudioHigh : RawFormat :=
  ⟨some "none", some "mp4a.40.2", some "m4a", none, some "140", none, none, some 128⟩

/-- C2 counterexample: with two compatible audio-only entries where the
second has the higher bitrate, the resolver appends the descriptor of the
FIRST entry (itag 139, 48kbps), not of the highest-bitrate one (itag 140,
128kbps) — refuting the claim that the appended audio descriptor is the
highest-bitrate compatible entry. -/
theorem C2_counterexample :
    processFormats [cexAudioLow, cexAudioHigh] = [mkAudioFD cexAudioLow] ∧
    cexAudioLow.abr.getD 0 < cexAudioHigh.abr.getD 0 ∧
    audioPass cexAudioHigh = true ∧
    mkAudioFD cexAudioLow ≠ mkAudioFD cexAudioHigh := by
  refine ⟨by decide, by decide, by decide, by decide⟩

/-- C2 as amended: the audio descriptor appended by the resolver is built
from the FIRST audio-only entry of a compatible container in the
collaborator's list order; its quality label is `MP3 <bitrate>kbps` when a
non-zero bitrate is known, else the generic `MP3`. -/
theorem C2_amended_first_audio (raw : List RawFormat) (i : Nat)
    (hi : i < raw.length) (hp : audioPass (raw.getD i dRaw) = true)
    (hfirst : ∀ j, j < i → audioPass (raw.getD j dRaw) = false) :
    ∃ vs, processFormats raw = vs ++ [mkAudioFD (raw.getD i dRaw)] ∧
      (∀ d ∈ vs, d.type = "video") ∧
      ((raw.getD i dRaw).abr.getD 0 ≠ 0 →
        (mkAudioFD (raw.getD i dRaw)).quality
          = "MP3 " ++ toString ⌊(raw.getD i dRaw).abr.getD 0⌋ ++ "kbps") ∧
      ((raw.getD i dRaw).abr.getD 0 = 0 →
        (mkAudioFD (raw.getD i dRaw)).quality = "MP3") := by
  have hfind : raw.find? audioPass = some (raw.getD i dRaw) :=
    find?_eq_getD_of_first hi hp hfirst
  refine ⟨(buildVideos raw []).insertionSort fdLE, ?_, ?_, ?_, ?_⟩
  · rw [processFormats, audioPart, hfind]
  · intro d hd
    obtain ⟨f, rfl⟩ := buildVideos_shape
      ((List.perm_insertionSort fdLE _).mem_iff.mp hd)
    rfl
  · intro hnz
    rw [show (mkAudioFD (raw.getD i dRaw)).quality = audioQuality (raw.getD i dRaw)
      from rfl]
    rw [audioQuality, if_pos hnz]
  · intro hz
    rw [show (mkAudioFD (raw.getD i dRaw)).quality = audioQuality (raw.getD i dRaw)
      from rfl]
    rw [audioQuality, if_neg (not_not_intro hz)]

/-- Witness for the amended C2 at a one-entry list. -/
theorem C2_amended_first_audio_witness :
    ∃ vs, processFormats [cexAudioLow] = vs ++ [mkAudioFD ([cexAudioLow].getD 0 dRaw)] ∧
      (∀ d ∈ vs, d.type = "video") ∧
      (([cexAudioLow].getD 0 dRaw).abr.getD 0 ≠ 0 →
        (mkAudioFD ([cexAudioLow].getD 0 dRaw)).quality
          = "MP3 " ++ toString ⌊([cexAudioLow].getD 0 dRaw).abr.getD 0⌋ ++ "kbps") ∧
      (([cexAudioLow].getD 0 dRaw).abr.getD 0 = 0 →
        (mkAudioFD ([cexAudioLow].getD 0 dRaw)).quality = "MP3") :=
  C2_amended_first_audio [cexAudioLow] 0 (by decide) (by decide) (by omega)

/-! ## The on-disk JSON cache (`get_cached_info` / `cache_info`)

The cache directory is modelled as a map from file key to file content;
`time.time()` values are rationals.  That both operations are total Lean
functions is the model of "never raises": every failure mode of the Python
code (missing file, unreadable file, unparsable JSON, missing keys, failed
write) is a constructor of the state, not an exception. -/

/-- The value cached for a URL: the JSON-serializable `video_info` dict. -/
structure VideoInfoVal where
  title : List Char
  thumbnail : List Char
  formats : List FormatDescriptor
deriving DecidableEq

/-- What reading a cache file can encounter: an unreadable or unparsable
file (any `open`/`json.load`/key error — all caught by the bare `except`),
or a parsed `{'info': ..., 'timestamp': ...}` record. -/
inductive FileContent where
  | corrupt : FileContent
  | entry : VideoInfoVal → ℚ → FileContent
deriving DecidableEq

/-- The cache directory: `none` means the file does not exist. -/
def CacheState := List Char → Option FileContent

/-- Key `get_cache_key`: `hashlib.md5(url.encode()).hexdigest()`.  The digest
function is library code, passed as a parameter; the cache semantics depend
only on the key being a deterministic function of the URL. -/
def get_cache_key (md5hex : List Char → List Char) (url : List Char) : List Char :=
  md5hex url

/-- Lookup `get_cached_info`: absent file or any read/parse failure yields `None`;
a parsed record is returned only while `now - timestamp < CACHE_DURATION`
(3600 seconds). -/
def get_cached_info (st : CacheState) (now : ℚ) (key : List Char) :
    Option VideoInfoVal :=
  match st key with
  | none => none
  | some .corrupt => none
  | some (.entry info ts) => if now - ts < 3600 then some info else none

/-- Store `cache_info`: write `{'info': info, 'timestamp': now}` under the key; a
failed write (modelled by `ok = false`) is swallowed, leaving the state
unchanged and raising nothing. -/
def cache_info (st : CacheState) (now : ℚ) (key : List Char) (info : VideoInfoVal)
    (ok : Bool) : CacheState :=
  if ok then (fun k => if k = key then some (.entry info now) else st k) else st

/-- C6: storing under a URL's key and looking the same URL up at the same
time returns the stored value unchanged; any lookup at least 3600 seconds
after the store's timestamp finds the entry expired and reports absent. -/
theorem C6_cache_roundtrip (md5hex : List Char → List Char) (st : CacheState)
    (u : List Char) (info : VideoInfoVal) (t : ℚ) :
    get_cached_info (cache_info st t (get_cache_key md5hex u) info true) t
      (get_cache_key md5hex u) = some info ∧
    ∀ t2 : ℚ, t2 - t ≥ 3600 →
      get_cached_info (cache_info st t (get_cache_key md5hex u) info true) t2
        (get_cache_key md5hex u) = none := by
  constructor
  · simp [get_cached_info, cache_info]
  · intro t2 ht
    simp only [get_cached_info, cache_info, if_pos rfl, if_true]
    rw [if_neg (not_lt.mpr ht)]

/-- Witness for C6 at concrete state, URL, value and times. -/
theorem C6_cache_roundtrip_witness :
    get_cached_info
      (cache_info (fun _ => none) 0 (get_cache_key (fun u => u) "url".data)
        ⟨"t".data, "th".data, []⟩ true) 0
      (get_cache_key (fun u => u) "url".data) = some ⟨"t".data, "th".data, []⟩ ∧
    get_cached_info
      (cache_info (fun _ => none) 0 (get_cache_key (fun u => u) "url".data)
        ⟨"t".data, "th".data, []⟩ true) 3600
      (get_cache_key (fun u => u) "url".data) = none :=
  ⟨(C6_cache_roundtrip (fun u => u) (fun _ => none) "url".data ⟨"t".data, "th".data, []⟩ 0).1,
   (C6_cache_roundtrip (fun u => u) (fun _ => none) "url".data ⟨"t".data, "th".data, []⟩ 0).2
     3600 (by norm_num)⟩

/-- C9: the cache operations are total and never surface an error — a
missing, unreadable or unparsable record makes the lookup report absent,
and a failed write leaves the state exactly as it was. -/
theorem C9_cache_never_raises (st : CacheState) (now : ℚ) (key : List Char)
    (info : VideoInfoVal) :
    (st key = none → get_cached_info st now key = none) ∧
    (st key = some .corrupt → get_cached_info st now key = none) ∧
    cache_info st now key info false = st := by
  refine ⟨?_, ?_, ?_⟩
  · intro h; simp [get_cached_info, h]
  · intro h; simp [get_cached_info, h]
  · rw [cache_info, if_neg (by simp)]

/-- Witness for C9 at a concrete state and key. -/
theorem C9_cache_never_raises_witness :
    get_cached_info (fun _ => none) 0 "k".data = none ∧
    get_cached_info (fun _ => some .corrupt) 0 "k".data = none ∧
    cache_info (fun _ => none) 0 "k".data ⟨"t".data, "th".data, []⟩ false
      = (fun _ => none) :=
  ⟨(C9_cache_never_raises (fun _ => none) 0 "k".data ⟨"t".data, "th".data, []⟩).1 rfl,
   (C9_cache_never_raises (fun _ => some .corrupt) 0 "k".data ⟨"t".data, "th".data, []⟩).2.1 rfl,
   (C9_cache_never_raises (fun _ => none) 0 "k".data ⟨"t".data, "th".data, []⟩).2.2⟩

/-! ## The `/download` handler (`download` in `src/app.py`)

The handler is a pure function from a description of the request and of the
collaborator's behaviour on this call to an outcome record.  The outcome
tracks the lifecycle of the `tempfile.mkdtemp()` directory: `shutil.rmtree`
appears in the source only on the success path and in the
`except`-and-reraise block, so the early `return` statements (stream not
found, downloaded file missing) exit without deleting the directory. -/

/-- One `/download` call: the two query parameters (`request.args.get`
yields `none` when absent) and the collaborator's behaviour. -/
structure DlRequest where
  urlArg : Option (List Char)
  itagArg : Option (List Char)
  /-- Constructor `YouTube(url)` raises with this message. -/
  ytRaises : Option (List Char)
  /-- Parse `int(itag)` succeeds (a non-numeric itag raises `ValueError`). -/
  itagParses : Bool
  /-- Call `yt.streams.get_by_itag(...)` returns a stream. -/
  streamFound : Bool
  /-- Call `stream.download(...)` raises with this message. -/
  dlRaises : Option (List Char)
  /-- Check `os.path.exists(output_path)` after the download. -/
  outputExists : Bool

structure DlOutcome where
  status : Nat
  error : Option (List Char)
  tempDirCreated : Bool
  tempDirDeleted : Bool
  fileSent : Bool
deriving DecidableEq

def download_handler (req : DlRequest) : DlOutcome :=
  if req.urlArg.getD [] = [] ∨ req.itagArg.getD [] = [] then
    ⟨400, some "Missing URL or format ID parameter".data, false, false, false⟩
  else if is_valid_youtube_url (req.urlArg.getD []) = false then
    ⟨400, some "Invalid YouTube URL".data, false, false, false⟩
  else
    match req.ytRaises with
    | some msg =>
      ⟨500, some ("Error downloading video: ".data ++ msg), true, true, false⟩
    | none =>
      if req.itagParses = false then
        ⟨500, some ("Error downloading video: invalid literal for int()".data),
          true, true, false⟩
      else if req.streamFound = false then
        ⟨400, some "Invalid format ID or stream not found".data, true, false, false⟩
      else
        match req.dlRaises with
        | some msg =>
          ⟨500, some ("Error downloading video: ".data ++ msg), true, true, false⟩
        | none =>
          if req.outputExists = false then
            ⟨500, some "Download failed or file not found".data, true, false, false⟩
          else ⟨200, none, true, true, true⟩

/-- The C1 failing input: a well-formed request whose itag matches no
stream. -/
def c1ReqStreamMissing : DlRequest :=
  ⟨some "https://www.youtube.com/watch?v=dQw4w9WgXcQ".data, some "999".data,
   none, true, false, none, true⟩

/-- A second failing input: the download reports success but the file is
not on disk. -/
def c1ReqFileMissing : DlRequest :=
  ⟨some "https://www.youtube.com/watch?v=dQw4w9WgXcQ".data, some "18".data,
   none, true, true, none, false⟩

/-- A contrasting input: the collaborator raises during download. -/
def c1ReqRaises : DlRequest :=
  ⟨some "https://www.youtube.com/watch?v=dQw4w9WgXcQ".data, some "18".data,
   none, true, true, some "boom".data, true⟩

/-- C1 fails on the code: on the early-return paths — requested format not
found (400) and downloaded file missing (500) — the handler returns with
the temporary directory created but never deleted; only the success path
and the exception path delete it. -/
theorem C1_temp_dir_leak :
    (download_handler c1ReqStreamMissing).status = 400 ∧
    (download_handler c1ReqStreamMissing).tempDirCreated = true ∧
    (download_handler c1ReqStreamMissing).tempDirDeleted = false ∧
    (download_handler c1ReqFileMissing).status = 500 ∧
    (download_handler c1ReqFileMissing).tempDirCreated = true ∧
    (download_handler c1ReqFileMissing).tempDirDeleted = false ∧
    (download_handler c1ReqRaises).status = 500 ∧
    (download_handler c1ReqRaises).tempDirDeleted = true := by
  refine ⟨?_, ?_, ?_, ?_, ?_, ?_, ?_, ?_⟩ <;> decide

/-! ## The `/get_video_info` handler (`get_video_info`, production) -/

/-- The collaborator's behaviour on a metadata fetch: raise with a message,
or return title, thumbnail and the raw format list. -/
inductive CollabResult where
  | raises : List Char → CollabResult
  | ok : List Char → List Char → List RawFormat → CollabResult

/-- One `/get_video_info` call.  `unexpected` models an exception raised
outside the inner `try` blocks (the outer catch-all); `hasUrl` models
`data and 'url' in data`. -/
structure InfoRequest where
  unexpected : Option (List Char)
  isJson : Bool
  hasUrl : Bool
  urlValue : List Char
  collab : CollabResult
  cacheWriteOk : Bool

structure InfoOutcome where
  status : Nat
  error : Option (List Char)
  payload : Option VideoInfoVal
  calledExtract : Bool
  calledCollab : Bool
deriving DecidableEq

def get_video_info_handler (md5hex : List Char → List Char) (st : CacheState)
    (now : ℚ) (req : InfoRequest) : InfoOutcome × CacheState :=
  match req.unexpected with
  | some msg =>
    (⟨500, some ("An unexpected error occurred: ".data ++ msg), none, false, false⟩, st)
  | none =>
    if req.isJson = false then
      (⟨400, some "Request must be JSON".data, none, false, false⟩, st)
    else if req.hasUrl = false then
      (⟨400, some "URL is required".data, none, false, false⟩, st)
    else
      let url := pyStrip req.urlValue
      if url = [] then
        (⟨400, some "URL cannot be empty".data, none, false, false⟩, st)
      else if is_valid_youtube_url url = false then
        (⟨400, some "Invalid YouTube URL. Please enter a valid YouTube video URL.".data,
          none, false, false⟩, st)
      else
        match extract_video_id url with
        | none =>
          (⟨400, some "Could not extract video ID from URL".data, none, true, false⟩, st)
        | some vid =>
          if vid = [] ∨ vid.length ≠ 11 then
            (⟨400, some "Could not extract video ID from URL".data, none, true, false⟩, st)
          else
            let key := get_cache_key md5hex ("https://www.youtube.com/watch?v=".data ++ vid)
            match get_cached_info st now key with
            | some info => (⟨200, none, some info, true, false⟩, st)
            | none =>
              match req.collab with
              | .raises msg =>
                (⟨400, some ("Error accessing YouTube: ".data ++ msg), none, true, true⟩, st)
              | .ok title thumb raws =>
                if processFormats raws = [] then
                  (⟨400,
                    some "No downloadable formats found. The video may have restrictions.".data,
                    none, true, true⟩, st)
                else
                  (⟨200, none, some ⟨title, thumb, processFormats raws⟩, true, true⟩,
                   cache_info st now key ⟨title, thumb, processFormats raws⟩ req.cacheWriteOk)

/-- C8: a request whose (stripped) URL matches neither validation pattern
is rejected with status 400, and identifier extraction is never invoked;
`is_valid_youtube_url` itself returns false on such a string. -/
theorem C8_invalid_url_rejected (md5hex : List Char → List Char) (st : CacheState)
    (now : ℚ) (req : InfoRequest)
    (hu : req.unexpected = none)
    (h1 : reStart pat1 (pyStrip req.urlValue) = false)
    (h2 : reDollar pat2 (pyStrip req.urlValue) = false) :
    is_valid_youtube_url (pyStrip req.urlValue) = false ∧
    (get_video_info_handler md5hex st now req).1.status = 400 ∧
    (get_video_info_handler md5hex st now req).1.calledExtract = false := by
  have hval : is_valid_youtube_url (pyStrip req.urlValue) = false := by
    rw [is_valid_youtube_url, h1, h2]; rfl
  refine ⟨hval, ?_⟩
  rcases req with ⟨unexp, isJson, hasUrl, urlValue, collab, cok⟩
  simp only at hu h1 h2 hval
  subst hu
  simp only [get_video_info_handler]
  cases isJson
  · exact ⟨rfl, rfl⟩
  · cases hasUrl
    · simp only [if_neg]
      exact ⟨rfl, rfl⟩
    · by_cases he : pyStrip urlValue = []
      · simp only [reduceIte, if_pos he]
        exact ⟨rfl, rfl⟩
      · simp only [reduceIte, if_neg he, if_pos hval]
        exact ⟨rfl, rfl⟩

/-- Witness for C8 at a concrete non-YouTube URL. -/
theorem C8_invalid_url_rejected_witness :
    is_valid_youtube_url (pyStrip "https://example.com/notyoutube".data) = false ∧
    (get_video_info_handler (fun u => u) (fun _ => none) 0
      ⟨none, true, true, "https://example.com/notyoutube".data,
        .ok "t".data "th".data [], true⟩).1.status = 400 ∧
    (get_video_info_handler (fun u => u) (fun _ => none) 0
      ⟨none, true, true, "https://example.com/notyoutube".data,
        .ok "t".data "th".data [], true⟩).1.calledExtract = false :=
  C8_invalid_url_rejected (fun u => u) (fun _ => none) 0
    ⟨none, true, true, "https://example.com/notyoutube".data,
      .ok "t".data "th".data [], true⟩ rfl (by decide) (by decide)

/-- C5: each failure class maps to its specified HTTP status — non-JSON
body, missing `url` key, empty URL, invalid URL and unresolvable identifier
give 400; a collaborator error during the metadata fetch gives 400 carrying
the underlying message; zero surviving formats give 400; missing `/download`
parameters give 400; a collaborator error during download and a missing
file after download give 500; an uncaught error gives 500. -/
theorem C5_status_mapping :
    (∀ (md5hex : List Char → List Char) (st : CacheState) (now : ℚ) (req : InfoRequest),
      req.unexpected = none → req.isJson = false →
      (get_video_info_handler md5hex st now req).1.status = 400) ∧
    (∀ md5hex st now req, req.unexpected = none → req.isJson = true →
      req.hasUrl = false →
      (get_video_info_handler md5hex st now req).1.status = 400) ∧
    (∀ md5hex st now req, req.unexpected = none → req.isJson = true →
      req.hasUrl = true → pyStrip req.urlValue = [] →
      (get_video_info_handler md5hex st now req).1.status = 400) ∧
    (∀ md5hex st now req, req.unexpected = none → req.isJson = true →
      req.hasUrl = true → pyStrip req.urlValue ≠ [] →
      is_valid_youtube_url (pyStrip req.urlValue) = false →
      (get_video_info_handler md5hex st now req).1.status = 400) ∧
    (∀ md5hex st now req, req.unexpected = none → req.isJson = true →
      req.hasUrl = true → pyStrip req.urlValue ≠ [] →
      is_valid_youtube_url (pyStrip req.urlValue) = true →
      extract_video_id (pyStrip req.urlValue) = none →
      (get_video_info_handler md5hex st now req).1.status = 400) ∧
    (∀ md5hex st now req vid msg, req.unexpected = none → req.isJson = true →
      req.hasUrl = true → pyStrip req.urlValue ≠ [] →
      is_valid_youtube_url (pyStrip req.urlValue) = true →
      extract_video_id (pyStrip req.urlValue) = some vid →
      vid ≠ [] → vid.length = 11 →
      get_cached_info st now
        (get_cache_key md5hex ("https://www.youtube.com/watch?v=".data ++ vid)) = none →
      req.collab = .raises msg →
      (get_video_info_handler md5hex st now req).1.status = 400 ∧
      (get_video_info_handler md5hex st now req).1.error
        = some ("Error accessing YouTube: ".data ++ msg)) ∧
    (∀ md5hex st now req vid title thumb raws, req.unexpected = none →
      req.isJson = true → req.hasUrl = true → pyStrip req.urlValue ≠ [] →
      is_valid_youtube_url (pyStrip req.urlValue) = true →
      extract_video_id (pyStrip req.urlValue) = some vid →
      vid ≠ [] → vid.length = 11 →
      get_cached_info st now
        (get_cache_key md5hex ("https://www.youtube.com/watch?v=".data ++ vid)) = none →
      req.collab = .ok title thumb raws →
      processFormats raws = [] →
      (get_video_info_handler md5hex st now req).1.status = 400) ∧
    (∀ md5hex st now req msg, req.unexpected = some msg →
      (get_video_info_handler md5hex st now req).1.status = 500) ∧
    (∀ req : DlRequest, req.urlArg.getD [] = [] ∨ req.itagArg.getD [] = [] →
      (download_handler req).status = 400) ∧
    (∀ (req : DlRequest) (msg : List Char), req.urlArg.getD [] ≠ [] →
      req.itagArg.getD [] ≠ [] →
      is_valid_youtube_url (req.urlArg.getD []) = true →
      req.ytRaises = none → req.itagParses = true → req.streamFound = true →
      req.dlRaises = some msg →
      (download_handler req).status = 500 ∧
      (download_handler req).error = some ("Error downloading video: ".data ++ msg)) ∧
    (∀ req : DlRequest, req.urlArg.getD [] ≠ [] → req.itagArg.getD [] ≠ [] →
      is_valid_youtube_url (req.urlArg.getD []) = true →
      req.ytRaises = none → req.itagParses = true → req.streamFound = true →
      req.dlRaises = none → req.outputExists = false →
      (download_handler req).status = 500) := by
  refine ⟨?_, ?_, ?_, ?_, ?_, ?_, ?_, ?_, ?_, ?_, ?_⟩
  · intro md5hex st now req hu hj
    rcases req with ⟨unexp, isJson, hasUrl, urlValue, collab, cok⟩
    simp only at hu hj
    subst hu; subst hj
    simp only [get_video_info_handler, reduceIte]
  · intro md5hex st now req hu hj hh
    rcases req with ⟨unexp, isJson, hasUrl, urlValue, collab, cok⟩
    simp only at hu hj hh
    subst hu; subst hj; subst hh
    simp only [get_video_info_handler, Bool.true_eq_false, if_false, reduceIte]
  · intro md5hex st now req hu hj hh he
    rcases req with ⟨unexp, isJson, hasUrl, urlValue, collab, cok⟩
    simp only at hu hj hh he
    subst hu; subst hj; subst hh
    simp only [get_video_info_handler, Bool.true_eq_false, if_false, reduceIte, if_pos he]
  · intro md5hex st now req hu hj hh he hv
    rcases req with ⟨unexp, isJson, hasUrl, urlValue, collab, cok⟩
    simp only at hu hj hh he hv
    subst hu; subst hj; subst hh
    simp only [get_video_info_handler, Bool.true_eq_false, if_false, reduceIte,
      if_neg he, if_pos hv]
  · intro md5hex st now req hu hj hh he hv hx
    rcases req with ⟨unexp, isJson, hasUrl, urlValue, collab, cok⟩
    simp only at hu hj hh he hv hx
    subst hu; subst hj; subst hh
    simp only [get_video_info_handler, Bool.true_eq_false, if_false, reduceIte, if_neg he,
      hv, hx]
  · intro md5hex st now req vid msg hu hj hh he hv hx hne hlen hcm hcol
    rcases req with ⟨unexp, isJson, hasUrl, urlValue, collab, cok⟩
    simp only at hu hj hh he hv hx hne hlen hcm hcol
    subst hu; subst hj; subst hh; subst hcol
    have hvl : ¬(vid = [] ∨ vid.length ≠ 11) := by push_neg; exact ⟨hne, hlen⟩
    simp only [get_video_info_handler, Bool.true_eq_false, if_false, reduceIte, if_neg he,
      hv, hx, if_neg hvl, hcm]
    constructor <;> trivial
  · intro md5hex st now req vid title thumb raws hu hj hh he hv hx hne hlen hcm hcol hz
    rcases req with ⟨unexp, isJson, hasUrl, urlValue, collab, cok⟩
    simp only at hu hj hh he hv hx hne hlen hcm hcol hz
    subst hu; subst hj; subst hh; subst hcol
    have hvl : ¬(vid = [] ∨ vid.length ≠ 11) := by push_neg; exact ⟨hne, hlen⟩
    simp only [get_video_info_handler, Bool.true_eq_false, if_false, reduceIte, if_neg he,
      hv, hx, if_neg hvl, hcm, if_pos hz]
  · intro md5hex st now req msg hu
    rcases req with ⟨unexp, isJson, hasUrl, urlValue, collab, cok⟩
    simp only at hu
    subst hu
    simp only [get_video_info_handler]
  · intro req hmiss
    rcases req with ⟨urlArg, itagArg, ytR, itagP, sf, dlR, oe⟩
    simp only at hmiss
    simp only [download_handler, if_pos hmiss]
  · intro req msg hu hi hv hyt hip hsf hdl
    rcases req with ⟨urlArg, itagArg, ytR, itagP, sf, dlR, oe⟩
    simp only at hu hi hv hyt hip hsf hdl
    subst hyt; subst hdl
    have hmiss : ¬(urlArg.getD [] = [] ∨ itagArg.getD [] = []) := by
      push_neg; exact ⟨hu, hi⟩
    simp only [download_handler, if_neg hmiss, hv, hip, hsf,
      Bool.true_eq_false, if_false, reduceIte]
    constructor <;> trivial
  · intro req hu hi hv hyt hip hsf hdl hoe
    rcases req with ⟨urlArg, itagArg, ytR, itagP, sf, dlR, oe⟩
    simp only at hu hi hv hyt hip hsf hdl hoe
    subst hyt; subst hdl; subst hoe; subst hip; subst hsf
    have hmiss : ¬(urlArg.getD [] = [] ∨ itagArg.getD [] = []) := by
      push_neg; exact ⟨hu, hi⟩
    simp only [download_handler, if_neg hmiss, hv,
      Bool.true_eq_false, if_false, reduceIte]

/-- Witness for C5: a collaborator failure during metadata fetch yields 400
with the underlying message, missing download parameters yield 400, an
uncaught error yields 500, and a missing file after download yields 500. -/
theorem C5_status_mapping_witness :
    ((get_video_info_handler (fun u => u) (fun _ => none) 0
      ⟨none, true, true, "https://www.youtube.com/watch?v=dQw4w9WgXcQ".data,
        .raises "boom".data, true⟩).1.status = 400 ∧
     (get_video_info_handler (fun u => u) (fun _ => none) 0
      ⟨none, true, true, "https://www.youtube.com/watch?v=dQw4w9WgXcQ".data,
        .raises "boom".data, true⟩).1.error
        = some ("Error accessing YouTube: ".data ++ "boom".data)) ∧
    (download_handler ⟨none, some "18".data, none, true, true, none, true⟩).status = 400 ∧
    (get_video_info_handler (fun u => u) (fun _ => none) 0
      ⟨some "oops".data, true, true, "u".data, .ok "t".data "h".data [], true⟩).1.status
      = 500 ∧
    (download_handler
      ⟨some "https://www.youtube.com/watch?v=dQw4w9WgXcQ".data, some "18".data,
        none, true, true, none, false⟩).status = 500 :=
  ⟨C5_status_mapping.2.2.2.2.2.1 (fun u => u) (fun _ => none) 0
      ⟨none, true, true, "https://www.youtube.com/watch?v=dQw4w9WgXcQ".data,
        .raises "boom".data, true⟩
      "dQw4w9WgXcQ".data "boom".data rfl rfl rfl (by decide) (by decide) (by decide)
      (by decide) (by decide) rfl rfl,
   C5_status_mapping.2.2.2.2.2.2.2.2.1
      ⟨none, some "18".data, none, true, true, none, true⟩ (by decide),
   C5_status_mapping.2.2.2.2.2.2.2.1 (fun u => u) (fun _ => none) 0
      ⟨some "oops".data, true, true, "u".data, .ok "t".data "h".data [], true⟩
      "oops".data rfl,
   C5_status_mapping.2.2.2.2.2.2.2.2.2.2
      ⟨some "https://www.youtube.com/watch?v=dQw4w9WgXcQ".data, some "18".data,
        none, true, true, none, false⟩
      (by decide) (by decide) (by decide) rfl rfl rfl rfl rfl⟩

end YT
